import Mathlib

/-!
Verification of the D-1 bipagens ingestion-reconciliation pipeline
(`app/modules/d1/services/bipagens_processor.py` and
`app/modules/d1/routes/upload.py`): a shallow embedding of the row model,
the recency resolver, the cross-reference joiner, the aging calculator and
the bulk writer, with theorems about deduplication, driver-assignment
tiers, unmatched-record dropping, idempotent upsert and failure fallback.
-/

/-! ## Datetimes

Python `datetime` values are modelled by their six fields.  Comparison and
subtraction go through a count of seconds from a fixed epoch (the civil
calendar algorithm); on valid datetimes this agrees with Python's
field-lexicographic comparison and with `timedelta.days`. -/

structure DT where
  year : Nat
  month : Nat
  day : Nat
  hour : Nat
  minute : Nat
  second : Nat
deriving DecidableEq, Repr

/-- Days from civil epoch 1970-01-01 (proleptic Gregorian).  All divisions
act on non-negative operands after the era shift, so `Int` truncation is
floor here, as in the standard algorithm. -/
def daysFromCivil (y m d : Int) : Int :=
  let y2 : Int := if m ≤ 2 then y - 1 else y
  let era : Int := (if 0 ≤ y2 then y2 else y2 - 399) / 400
  let yoe : Int := y2 - era * 400
  let mp : Int := (m + 9) % 12
  let doy : Int := (153 * mp + 2) / 5 + d - 1
  let doe : Int := yoe * 365 + yoe / 4 - yoe / 100 + doy
  era * 146097 + doe - 719468

def toSecs (t : DT) : Int :=
  daysFromCivil (t.year : Int) (t.month : Int) (t.day : Int) * 86400
    + (t.hour : Int) * 3600 + (t.minute : Int) * 60 + (t.second : Int)

/-- Python `datetime` `<` (lexicographic on fields; equal to second-count
comparison on valid datetimes). -/
def dtLt (a b : DT) : Bool := decide (toSecs a < toSecs b)

/-- `(a - b).days` of Python `timedelta`: floor of the signed difference in
seconds over 86400. -/
def diffDays (a b : DT) : Int := Int.fdiv (toSecs a - toSecs b) 86400

def pad2 (n : Nat) : String := if n < 10 then "0" ++ toString n else toString n

def pad4 (n : Nat) : String :=
  if n < 10 then "000" ++ toString n
  else if n < 100 then "00" ++ toString n
  else if n < 1000 then "0" ++ toString n
  else toString n

/-- Python `str(datetime(...))` with zero microseconds. -/
def dtToString (t : DT) : String :=
  pad4 t.year ++ "-" ++ pad2 t.month ++ "-" ++ pad2 t.day ++ " "
    ++ pad2 t.hour ++ ":" ++ pad2 t.minute ++ ":" ++ pad2 t.second

/-! ## Python scalar values and strings

Spreadsheet cells reach the processor as `None`, strings, numbers,
booleans or `datetime` objects; `PyVal` is that closed variant.  The
helpers mirror Python `str()`, truthiness, `str.strip` and `str.upper`
(the upper map covers ASCII and the Latin-1 letters, which include every
character the processor compares). -/

inductive PyVal where
  | vNone
  | vStr (s : String)
  | vInt (n : Int)
  | vBool (b : Bool)
  | vDT (t : DT)
deriving DecidableEq, Repr

def pyStr : PyVal → String
  | .vNone => "None"
  | .vStr s => s
  | .vInt n => toString n
  | .vBool b => if b then "True" else "False"
  | .vDT t => dtToString t

def pyTruthy : PyVal → Bool
  | .vNone => false
  | .vStr s => s != ""
  | .vInt n => n != 0
  | .vBool b => b
  | .vDT _ => true

def pySpace (c : Char) : Bool :=
  c == ' ' || c == '\t' || c == '\n' || c == '\x0d' || c == '\x0b' || c == '\x0c'

def pyStrip (s : String) : String :=
  String.mk (((s.data.dropWhile pySpace).reverse.dropWhile pySpace).reverse)

/-- Python `str.upper` per character (full mapping on ASCII and Latin-1:
`ß` expands to `SS`, `ÿ` maps to `Ÿ`; characters outside that range are
left unchanged, which is exact for every string the processor handles). -/
def pyCharUpper (c : Char) : List Char :=
  if 'a' ≤ c ∧ c ≤ 'z' then [Char.ofNat (c.toNat - 32)]
  else if c = 'ß' then ['S', 'S']
  else if c = 'ÿ' then ['Ÿ']
  else if ('à' ≤ c ∧ c ≤ 'ö') ∨ ('ø' ≤ c ∧ c ≤ 'þ') then [Char.ofNat (c.toNat - 32)]
  else [c]

def pyUpper (s : String) : String := String.mk (s.data.map pyCharUpper).flatten

def listSub (needle : List Char) : List Char → Bool
  | [] => needle.isEmpty
  | c :: rest => List.isPrefixOf needle (c :: rest) || listSub needle rest

/-- Python `needle in hay` on strings (substring containment). -/
def pyInStr (needle hay : String) : Bool := listSub needle.data hay.data

def isAsciiDigit (c : Char) : Bool := '0' ≤ c && c ≤ '9'

def isAsciiLetter (c : Char) : Bool := ('A' ≤ c && c ≤ 'Z') || ('a' ≤ c && c ≤ 'z')

/-- `re.search(sep ++ "\d+$", s)`: the string ends in `sep` followed by one
or more ASCII digits. -/
def endsWithSepDigits (sep : Char) (s : String) : Bool :=
  let r := s.data.reverse
  let ds := r.takeWhile isAsciiDigit
  !ds.isEmpty && ((r.dropWhile isAsciiDigit).head? == some sep)

/-- Child-shipment test (bipagens_processor.py lines 152-157): the id ends
in `.digits`, `-digits`, `_digits`, or an ASCII letter. -/
def isChild (s : String) : Bool :=
  endsWithSepDigits '.' s || endsWithSepDigits '-' s || endsWithSepDigits '_' s ||
    (match s.data.reverse.head? with
     | some c => isAsciiLetter c
     | none => false)

/-! ## Rows -/

/-- One spreadsheet row: a string-keyed map of scalars, as the processor's
`row_dict` (Python dicts keep insertion order and unique keys). -/
abbrev Row := List (String × PyVal)

def getVal : Row → String → Option PyVal
  | [], _ => none
  | p :: ps, k => if p.1 == k then some p.2 else getVal ps k

/-- Python `item.get(k, d)`. -/
def getD (r : Row) (k : String) (d : PyVal) : PyVal := (getVal r k).getD d

/-- Python `k in item`. -/
def temCampo (r : Row) (k : String) : Bool := (getVal r k).isSome

/-- `str(item.get(k, '')).strip()`, the field extraction used throughout. -/
def campo (r : Row) (k : String) : String := pyStrip (pyStr (getD r k (.vStr "")))

/-- Python `item[k] = v` (replace in place when present, else append). -/
def setField : Row → String → PyVal → Row
  | [], k, v => [(k, v)]
  | p :: ps, k, v => if p.1 == k then (k, v) :: ps else p :: setField ps k v

/-- Python `item.pop(k, None)`. -/
def eraseField (r : Row) (k : String) : Row := r.filter (fun p => p.1 != k)

/-! ## `datetime.strptime` for the four formats tried by the processor

`%Y` matches exactly four digits, the other directives one or two digits
(greedy, which coincides with the backtracking regex here because every
separator is a non-digit), the whole string must be consumed, and the
fields must form a valid datetime. -/

def takeDigits2 : List Char → Option (Nat × List Char)
  | [] => none
  | [c1] => if isAsciiDigit c1 then some (c1.toNat - 48, []) else none
  | c1 :: c2 :: rest =>
    if isAsciiDigit c1 then
      if isAsciiDigit c2 then some ((c1.toNat - 48) * 10 + (c2.toNat - 48), rest)
      else some (c1.toNat - 48, c2 :: rest)
    else none

def takeDigits4 : List Char → Option (Nat × List Char)
  | a :: b :: c :: d :: rest =>
    if isAsciiDigit a && isAsciiDigit b && isAsciiDigit c && isAsciiDigit d then
      some ((((a.toNat - 48) * 10 + (b.toNat - 48)) * 10 + (c.toNat - 48)) * 10
        + (d.toNat - 48), rest)
    else none
  | _ => none

def expectChar (c : Char) : List Char → Option (List Char)
  | x :: rest => if x == c then some rest else none
  | [] => none

def isLeapYear (y : Nat) : Bool := (y % 4 == 0 && y % 100 != 0) || y % 400 == 0

def daysInMonth (y m : Nat) : Nat :=
  if m == 2 then (if isLeapYear y then 29 else 28)
  else if m == 4 || m == 6 || m == 9 || m == 11 then 30
  else 31

def validDT (t : DT) : Bool :=
  1 ≤ t.year && t.year ≤ 9999 && 1 ≤ t.month && t.month ≤ 12 &&
    1 ≤ t.day && t.day ≤ daysInMonth t.year t.month &&
    t.hour ≤ 23 && t.minute ≤ 59 && t.second ≤ 59

def mkDT (y m d hh mi ss : Nat) : Option DT :=
  let t : DT := ⟨y, m, d, hh, mi, ss⟩
  if validDT t then some t else none

/-- `%H:%M:%S` tail. -/
def parseHMS (l : List Char) : Option (Nat × Nat × Nat × List Char) := do
  let (hh, l1) ← takeDigits2 l
  let l2 ← expectChar ':' l1
  let (mi, l3) ← takeDigits2 l2
  let l4 ← expectChar ':' l3
  let (ss, l5) ← takeDigits2 l4
  pure (hh, mi, ss, l5)

/-- `%Y-%m-%d` head. -/
def parseYMD (l : List Char) : Option (Nat × Nat × Nat × List Char) := do
  let (y, l1) ← takeDigits4 l
  let l2 ← expectChar '-' l1
  let (m, l3) ← takeDigits2 l2
  let l4 ← expectChar '-' l3
  let (d, l5) ← takeDigits2 l4
  pure (y, m, d, l5)

/-- `%d/%m/%Y` head. -/
def parseDMY (l : List Char) : Option (Nat × Nat × Nat × List Char) := do
  let (d, l1) ← takeDigits2 l
  let l2 ← expectChar '/' l1
  let (m, l3) ← takeDigits2 l2
  let l4 ← expectChar '/' l3
  let (y, l5) ← takeDigits4 l4
  pure (d, m, y, l5)

def strptimeYmdHms (s : String) : Option DT := do
  let (y, m, d, l1) ← parseYMD s.data
  let l2 ← expectChar ' ' l1
  let (hh, mi, ss, l3) ← parseHMS l2
  if l3.isEmpty then mkDT y m d hh mi ss else none

def strptimeYmd (s : String) : Option DT := do
  let (y, m, d, l1) ← parseYMD s.data
  if l1.isEmpty then mkDT y m d 0 0 0 else none

def strptimeDmyHms (s : String) : Option DT := do
  let (d, m, y, l1) ← parseDMY s.data
  let l2 ← expectChar ' ' l1
  let (hh, mi, ss, l3) ← parseHMS l2
  if l3.isEmpty then mkDT y m d hh mi ss else none

def strptimeDmy (s : String) : Option DT := do
  let (d, m, y, l1) ← parseDMY s.data
  if l1.isEmpty then mkDT y m d 0 0 0 else none

/-- The format list tried in order (bipagens_processor.py line 171):
`'%Y-%m-%d %H:%M:%S'`, `'%Y-%m-%d'`, `'%d/%m/%Y %H:%M:%S'`, `'%d/%m/%Y'`;
first success wins. -/
def tryFormats (s : String) : Option DT :=
  match strptimeYmdHms s with
  | some t => some t
  | none =>
    match strptimeYmd s with
    | some t => some t
    | none =>
      match strptimeDmyHms s with
      | some t => some t
      | none => strptimeDmy s

/-- Lines 166-182: a `datetime` cell is used directly, a string is tried
against the format list, anything else fails. -/
def parseTempo : PyVal → Option DT
  | .vDT t => some t
  | .vStr s => tryFormats s
  | _ => none

/-! ## Recency Resolver — `_deduplicar_por_data_recente` (lines 136-217)

Rows are keyed by `'Número de pedido JMS'`; empty keys, child shipments
and rows without a parseable `'Tempo de digitalização'` are skipped; the
remaining rows are grouped in first-occurrence order (a Python dict), each
group is stable-sorted descending by parsed timestamp, and the head row is
kept, tagged with `_tem_motorista` = non-empty courier field. -/

def numeroPedido (item : Row) : String := campo item "Número de pedido JMS"

/-- Lines 147-189: the per-row admission of the grouping loop.  Returns
the group key and the parsed timestamp when the row is admitted. -/
def prepararItem (item : Row) : Option (String × DT) :=
  let numero := numeroPedido item
  if numero == "" then none
  else if isChild numero then none
  else
    let raw := getD item "Tempo de digitalização" .vNone
    if !pyTruthy raw then none
    else
      match parseTempo raw with
      | some t => some (numero, t)
      | none => none

/-- Append a row to its group, creating the group at the end when new
(Python dict insertion order). -/
def addToGroup (k : String) (p : Row × DT) :
    List (String × List (Row × DT)) → List (String × List (Row × DT))
  | [] => [(k, [p])]
  | g :: gs => if g.1 == k then (g.1, g.2 ++ [p]) :: gs else g :: addToGroup k p gs

/-- Lines 144-189: `pedidos_agrupados`. -/
def agrupar (dados : List Row) : List (String × List (Row × DT)) :=
  dados.foldl
    (fun gs item =>
      match prepararItem item with
      | some kt => addToGroup kt.1 (item, kt.2) gs
      | none => gs) []

/-- Stable descending insertion: the new element passes an existing one
only when strictly more recent, so equal timestamps keep input order. -/
def insDesc (p : Row × DT) : List (Row × DT) → List (Row × DT)
  | [] => [p]
  | q :: qs => if dtLt q.2 p.2 then p :: q :: qs else q :: insDesc p qs

/-- Line 197: Python's stable `list.sort(key=tempo, reverse=True)`. -/
def sortDescTempo (l : List (Row × DT)) : List (Row × DT) :=
  l.foldl (fun acc p => insDesc p acc) []

/-- Lines 200-215: tag the chosen row (`_tem_motorista` = courier field
non-empty) and drop the auxiliary `_tempo_digitalizacao` key. -/
def marcarMotorista (melhor : Row) : Row :=
  let correio := campo melhor "Correio de coleta ou entrega"
  setField (eraseField melhor "_tempo_digitalizacao") "_tem_motorista"
    (.vBool (correio != ""))

def deduplicarPorDataRecente (dados : List Row) : List Row :=
  (agrupar dados).filterMap
    (fun g =>
      match sortDescTempo g.2 with
      | [] => none
      | melhor :: _ => some (marcarMotorista melhor.1))

/-- Derived characterization: the rows admitted under key `k`, in input
order, with their parsed timestamps. -/
def registrosDaChave (dados : List Row) (k : String) : List (Row × DT) :=
  dados.filterMap
    (fun item =>
      match prepararItem item with
      | some kt => if kt.1 == k then some (item, kt.2) else none
      | none => none)

def maxStep (b : Option (Row × DT)) (q : Row × DT) : Option (Row × DT) :=
  match b with
  | none => some q
  | some p => if dtLt p.2 q.2 then some q else some p

/-- Derived characterization: the first element attaining the maximal
timestamp (strict comparison, so ties keep the earliest). -/
def primeiroMax (l : List (Row × DT)) : Option (Row × DT) := l.foldl maxStep none

/-! ## Cross-Reference Joiner — `_buscar_dados_completos` (lines 219-395)

The reference chunk store is the list of the chunks' `chunk_data` row
lists.  The wanted-key set is extracted from the input, the chunks are
scanned once (first occurrence per key, early stop once every wanted key
is found), and each input row is merged with its reference row or dropped
when no reference row exists. -/

/-- Lines 228-229: distinct wanted keys.  Python materialises
`list(set(...))`; only membership and cardinality of the result are used,
so the deduplicated list is a faithful model. -/
def extrairNumeros (dados : List Row) : List String :=
  (dados.filterMap
    (fun item =>
      if pyTruthy (getD item "Número de pedido JMS" .vNone) then
        some (campo item "Número de pedido JMS")
      else none)).dedup

def lookupFound : List (String × Row) → String → Option Row
  | [], _ => none
  | p :: ps, k => if p.1 == k then some p.2 else lookupFound ps k

/-- Lines 251-260: scan one chunk's rows, recording the first occurrence
of each wanted key and stopping once every wanted key is found. -/
def scanChunk (wanted : List String) (found : List (String × Row)) :
    List Row → List (String × Row)
  | [] => found
  | reg :: rest =>
    let k := numeroPedido reg
    if wanted.contains k && (lookupFound found k).isNone then
      let found2 := found ++ [(k, reg)]
      if wanted.length ≤ found2.length then found2
      else scanChunk wanted found2 rest
    else scanChunk wanted found rest

/-- Lines 244-264: scan the chunks in order with the early-stop check
after each chunk. -/
def scanChunks (wanted : List String) (found : List (String × Row)) :
    List (List Row) → List (String × Row)
  | [] => found
  | ch :: rest =>
    let found2 := scanChunk wanted found ch
    if wanted.length ≤ found2.length then found2
    else scanChunks wanted found2 rest

/-- Lines 304-308: `'Base de escaneamento'` with fallback to
`'Base Destino'`. -/
def baseEscaneamentoDe (item : Row) : String :=
  let baseEscaneamento := campo item "Base de escaneamento"
  if baseEscaneamento != "" then baseEscaneamento else campo item "Base Destino"

/-- Lines 310-359: the three validations and the tiered driver decision,
returning `(esta_com_motorista, responsavel_final)`.  Note line 328: the
problematic-package needles are lowercase but tested against the
uppercased type, so that validation is never true. -/
def decisaoMotorista (correio digitalizador tipoBipagem baseEscaneamentoFinal
    responsavelEntregaChunks baseEntregaChunks : String) : Bool × String :=
  let correioVazio := correio == ""
  let basesIguais := baseEscaneamentoFinal != "" && baseEntregaChunks != "" &&
    (pyUpper (pyStrip baseEscaneamentoFinal) == pyUpper (pyStrip baseEntregaChunks))
  let digitalizadorIgualResponsavel :=
    digitalizador != "" && responsavelEntregaChunks != "" &&
      (pyUpper (pyStrip digitalizador) == pyUpper (pyStrip responsavelEntregaChunks))
  let tipoBipagemProblematico := tipoBipagem != "" &&
    (pyInStr "bipe de pacote problemático" (pyUpper (pyStrip tipoBipagem)) ||
      pyInStr "pacote problemático" (pyUpper (pyStrip tipoBipagem)))
  if basesIguais then
    if !correioVazio then (true, correio)
    else if digitalizadorIgualResponsavel then (true, responsavelEntregaChunks)
    else if tipoBipagemProblematico then
      (true, if responsavelEntregaChunks != "" then responsavelEntregaChunks
        else digitalizador)
    else (false, "")
  else (false, "")

/-- The decision applied to the extracted fields of a scan row and its
reference row. -/
def decisaoDe (item pedidoEncontrado : Row) : Bool × String :=
  decisaoMotorista (campo item "Correio de coleta ou entrega")
    (campo item "Digitalizador") (campo item "Tipo de bipagem")
    (baseEscaneamentoDe item)
    (campo pedidoEncontrado "Responsável pela entrega")
    (campo pedidoEncontrado "Base de entrega")

/-- Lines 361-391: the merged record built for one matched input row. -/
def registroFinal (item pedidoEncontrado : Row) : Row :=
  let numero := numeroPedido item
  let correio := campo item "Correio de coleta ou entrega"
  let responsavelEntregaChunks := campo pedidoEncontrado "Responsável pela entrega"
  let baseEntregaChunks := campo pedidoEncontrado "Base de entrega"
  let digitalizador := campo item "Digitalizador"
  let tipoBipagem := campo item "Tipo de bipagem"
  let baseEscaneamentoFinal := baseEscaneamentoDe item
  let decisao := decisaoDe item pedidoEncontrado
  let baseFinal := if baseEntregaChunks != "" then baseEntregaChunks
    else baseEscaneamentoFinal
  let correioFinal := if decisao.1 then decisao.2 else correio
  [("Número de pedido JMS", .vStr numero),
   ("Base de entrega", .vStr baseFinal),
   ("Horário de saída para entrega",
     getD pedidoEncontrado "Horário de saída para entrega" (.vStr "")),
   ("Responsável pela entrega", .vStr decisao.2),
   ("Marca de assinatura", getD pedidoEncontrado "Marca de assinatura" (.vStr "")),
   ("CEP destino", getD pedidoEncontrado "CEP destino" (.vStr "")),
   ("Motivos dos pacotes problemáticos",
     getD pedidoEncontrado "Motivos dos pacotes problemáticos" (.vStr "")),
   ("Destinatário", getD pedidoEncontrado "Destinatário" (.vStr "")),
   ("Complemento", getD pedidoEncontrado "Complemento" (.vStr "")),
   ("Distrito destinatário",
     getD pedidoEncontrado "Distrito destinatário" (.vStr "")),
   ("Cidade Destino", getD pedidoEncontrado "Cidade Destino" (.vStr "")),
   ("3 Segmentos", getD pedidoEncontrado "3 Segmentos" (.vStr "")),
   ("Tempo de digitalização", getD item "Tempo de digitalização" .vNone),
   ("Correio de coleta ou entrega", .vStr correioFinal),
   ("Tipo de bipagem", .vStr tipoBipagem),
   ("Digitalizador", .vStr digitalizador),
   ("Base Destino", .vStr baseEscaneamentoFinal),
   ("Base de escaneamento", .vStr baseEscaneamentoFinal),
   ("_esta_com_motorista", .vBool decisao.1),
   ("_responsavel_entrega_chunks_original", .vStr responsavelEntregaChunks)]

/-- Lines 270-295: the per-row body of the merge loop; `none` when the
row is skipped (empty key, child shipment, or no reference match). -/
def processarItemBipagem (pedidosEncontrados : List (String × Row)) (item : Row) :
    Option Row :=
  let numero := numeroPedido item
  if numero == "" then none
  else if isChild numero then none
  else
    match lookupFound pedidosEncontrados numero with
    | none => none
    | some pedidoEncontrado => some (registroFinal item pedidoEncontrado)

def buscarDadosCompletos (chunks : List (List Row)) (dados : List Row) : List Row :=
  let numerosPedidos := extrairNumeros dados
  let pedidosEncontrados := scanChunks numerosPedidos [] chunks
  dados.filterMap (processarItemBipagem pedidosEncontrados)

/-! ## Aging Calculator — `_calcular_tempo_parado` (lines 397-438)

Falsy or unparseable timestamps give a `None` bucket; otherwise the bucket
is `"Exceed N days with no track"` with `N = (hoje - tempo).days`. -/

def bucketTempoParado (hoje : DT) (item : Row) : PyVal :=
  let raw := getD item "Tempo de digitalização" .vNone
  if !pyTruthy raw then .vNone
  else
    match raw with
    | .vDT t => .vStr ("Exceed " ++ toString (diffDays hoje t) ++ " days with no track")
    | .vStr s =>
      match tryFormats s with
      | some t =>
        .vStr ("Exceed " ++ toString (diffDays hoje t) ++ " days with no track")
      | none => .vNone
    | _ => .vNone

def calcularTempoParado (hoje : DT) (dados : List Row) : List Row :=
  dados.map (fun item => setField item "Tempo de Pedido parado" (bucketTempoParado hoje item))

/-! ## Bulk Writer — `_salvar_na_colecao` (lines 440-671)

The `d1_bipagens` collection is an association list from
`numero_pedido_jms` to a stored document; the unique index the code
creates is the `Nodup` hypothesis on its keys.  Records are processed in
chunks of 1000; each chunk is turned into `UpdateOne(..., upsert=True)`
operations (skipping empty keys and children) and bulk-written; when the
bulk write raises, every record of the chunk is retried one by one, with
per-record exceptions swallowed.  Store failures are an oracle: one flag
per chunk for the bulk call, one flag per (chunk, item) for the
per-record fallback (a failing record leaves the store unchanged and is
only logged). -/

structure DocCampos where
  numero_pedido_jms : String
  base_entrega : PyVal
  horario_saida_entrega : PyVal
  responsavel_entrega : PyVal
  marca_assinatura : PyVal
  cep_destino : PyVal
  motivos_pacotes_problematicos : PyVal
  destinatario_doc : PyVal
  complemento : PyVal
  distrito_destinatario_doc : PyVal
  cidade_destino : PyVal
  tres_segmentos : PyVal
  tempo_digitalizacao : PyVal
  tempo_pedido_parado : PyVal
  digitalizador : PyVal
  base_destino : PyVal
  base_escaneamento : PyVal
  esta_com_motorista : PyVal
  updated_at : DT
deriving DecidableEq, Repr

structure StoredDoc where
  campos : DocCampos
  created_at : DT
deriving DecidableEq, Repr

abbrev Estado := List (String × StoredDoc)

def keysEstado (s : Estado) : List String := s.map Prod.fst

def lookupDoc : Estado → String → Option StoredDoc
  | [], _ => none
  | e :: es, k => if e.1 == k then some e.2 else lookupDoc es k

def replaceDoc (k : String) (novo : StoredDoc) : Estado → Estado
  | [] => []
  | e :: es => if e.1 == k then (k, novo) :: es else e :: replaceDoc k novo es

/-- Lines 488-496 / 573-581: parse a string timestamp for storage; an
unparseable string is stored as-is. -/
def converterTempo (v : PyVal) : PyVal :=
  match v with
  | .vStr s =>
    match tryFormats s with
    | some t => .vDT t
    | none => .vStr s
  | other => other

/-- Lines 504-522: when `_esta_com_motorista` is absent the bulk path
recomputes only courier-filled-and-bases-equal; note `bases_iguais`
defaults to `True` here (line 512), unlike the joiner. -/
def recomputeBulk (item : Row) : PyVal × PyVal :=
  let correioValor := getD item "Correio de coleta ou entrega" (.vStr "")
  let correioPreenchido :=
    pyTruthy correioValor && (pyStrip (pyStr correioValor) != "")
  let baseEntregaValor := getD item "Base de entrega" (.vStr "")
  let baseEscaneamentoValor :=
    if pyTruthy (getD item "Base de escaneamento" (.vStr "")) then
      getD item "Base de escaneamento" (.vStr "")
    else getD item "Base Destino" (.vStr "")
  let basesIguais :=
    if pyTruthy baseEscaneamentoValor && pyTruthy baseEntregaValor then
      pyUpper (pyStrip (pyStr baseEscaneamentoValor)) ==
        pyUpper (pyStrip (pyStr baseEntregaValor))
    else true
  let esta := correioPreenchido && basesIguais
  (.vBool esta, if esta then .vStr (pyStrip (pyStr correioValor)) else .vStr "")

/-- Lines 498-544: the `$set` document of one bulk upsert operation;
`none` when the record is skipped (empty key or child shipment). -/
def buildOpBulk (hoje : DT) (item : Row) : Option (String × DocCampos) :=
  let numero := numeroPedido item
  if numero == "" then none
  else if isChild numero then none
  else
    let fr :=
      if temCampo item "_esta_com_motorista" then
        (getD item "_esta_com_motorista" .vNone,
          getD item "Responsável pela entrega" (.vStr ""))
      else recomputeBulk item
    some (numero,
      { numero_pedido_jms := numero
        base_entrega := getD item "Base de entrega" (.vStr "")
        horario_saida_entrega := getD item "Horário de saída para entrega" (.vStr "")
        responsavel_entrega := fr.2
        marca_assinatura := getD item "Marca de assinatura" (.vStr "")
        cep_destino := getD item "CEP destino" (.vStr "")
        motivos_pacotes_problematicos :=
          getD item "Motivos dos pacotes problemáticos" (.vStr "")
        destinatario_doc := getD item "Destinatário" (.vStr "")
        complemento := getD item "Complemento" (.vStr "")
        distrito_destinatario_doc := getD item "Distrito destinatário" (.vStr "")
        cidade_destino := getD item "Cidade Destino" (.vStr "")
        tres_segmentos := getD item "3 Segmentos" (.vStr "")
        tempo_digitalizacao := converterTempo (getD item "Tempo de digitalização" .vNone)
        tempo_pedido_parado := getD item "Tempo de Pedido parado" (.vStr "")
        digitalizador := getD item "Digitalizador" (.vStr "")
        base_destino := getD item "Base Destino" (.vStr "")
        base_escaneamento :=
          if pyTruthy (getD item "Base de escaneamento" (.vStr "")) then
            getD item "Base de escaneamento" (.vStr "")
          else getD item "Base Destino" (.vStr "")
        esta_com_motorista := fr.1
        updated_at := hoje })

/-- One `UpdateOne({'numero_pedido_jms': k}, {'$set': doc, '$setOnInsert':
created_at}, upsert=True)`: update keeps `created_at`; insert sets it.
Returns (state, inserted?, modified?) — Mongo's `modified_count` counts
a matched document only when the update changed it. -/
def upsertOne (hoje : DT) (s : Estado) (op : String × DocCampos) :
    Estado × Bool × Bool :=
  match lookupDoc s op.1 with
  | some old =>
    let novo : StoredDoc := { campos := op.2, created_at := old.created_at }
    (replaceDoc op.1 novo s, false, novo != old)
  | none => (s ++ [(op.1, { campos := op.2, created_at := hoje })], true, false)

/-- `bulk_write(ops, ordered=False)` applied to operations with the
per-operation counters summed (`upserted_count`, `modified_count`). -/
def aplicarOps (hoje : DT) (s : Estado) : List (String × DocCampos) → Estado × Nat × Nat
  | [] => (s, 0, 0)
  | op :: ops =>
    let one := upsertOne hoje s op
    let rest := aplicarOps hoje one.1 ops
    (rest.1, (if one.2.1 then 1 else 0) + rest.2.1,
      (if one.2.2 then 1 else 0) + rest.2.2)

/-- Lines 589-632: the fallback recomputation used when
`_esta_com_motorista` is absent (full tier logic, `bases_iguais`
defaulting to `False`).  When the bases match and no tier fires the
Python code leaves `responsavel_entrega_fallback` unassigned (a
`NameError` caught by the per-item handler); the pipeline always sets
the flag, so theorems about the fallback assume the flag present and
this branch is modelled as the empty driver. -/
def recomputeFallback (item : Row) : PyVal × PyVal :=
  let correioValor := getD item "Correio de coleta ou entrega" (.vStr "")
  let correioVazio := !pyTruthy correioValor || (pyStrip (pyStr correioValor) == "")
  let baseEntregaValor := getD item "Base de entrega" (.vStr "")
  let baseEscaneamentoValor :=
    if pyTruthy (getD item "Base de escaneamento" (.vStr "")) then
      getD item "Base de escaneamento" (.vStr "")
    else getD item "Base Destino" (.vStr "")
  let digitalizadorF := pyStrip (pyStr (getD item "Digitalizador" (.vStr "")))
  let tipoBipagemF := pyStrip (pyStr (getD item "Tipo de bipagem" (.vStr "")))
  let respChunksF := pyStrip (pyStr
    (if pyTruthy (getD item "_responsavel_entrega_chunks_original" (.vStr "")) then
      getD item "_responsavel_entrega_chunks_original" (.vStr "")
    else getD item "Responsável pela entrega" (.vStr "")))
  let basesIguaisF :=
    pyTruthy baseEscaneamentoValor && pyTruthy baseEntregaValor &&
      (pyUpper (pyStrip (pyStr baseEscaneamentoValor)) ==
        pyUpper (pyStrip (pyStr baseEntregaValor)))
  let digIgualF := digitalizadorF != "" && respChunksF != "" &&
    (pyUpper (pyStrip digitalizadorF) == pyUpper (pyStrip respChunksF))
  let tipoProbF := tipoBipagemF != "" &&
    (pyInStr "bipe de pacote problemático" (pyUpper (pyStrip tipoBipagemF)) ||
      pyInStr "pacote problemático" (pyUpper (pyStrip tipoBipagemF)))
  if basesIguaisF then
    if !correioVazio then (.vBool true, .vStr (pyStrip (pyStr correioValor)))
    else if digIgualF then (.vBool true, .vStr respChunksF)
    else if tipoProbF then
      (.vBool true, .vStr (if respChunksF != "" then respChunksF else digitalizadorF))
    else (.vBool false, .vStr "")
  else (.vBool false, .vStr "")

/-- Lines 634-654: the fallback path's `$set` document.  Unlike the bulk
path it does not skip child shipments. -/
def buildDocFallback (hoje : DT) (item : Row) : DocCampos :=
  let numero := numeroPedido item
  let fr :=
    if temCampo item "_esta_com_motorista" then
      (getD item "_esta_com_motorista" .vNone,
        getD item "Responsável pela entrega" (.vStr ""))
    else recomputeFallback item
  { numero_pedido_jms := numero
    base_entrega := getD item "Base de entrega" (.vStr "")
    horario_saida_entrega := getD item "Horário de saída para entrega" (.vStr "")
    responsavel_entrega := fr.2
    marca_assinatura := getD item "Marca de assinatura" (.vStr "")
    cep_destino := getD item "CEP destino" (.vStr "")
    motivos_pacotes_problematicos :=
      getD item "Motivos dos pacotes problemáticos" (.vStr "")
    destinatario_doc := getD item "Destinatário" (.vStr "")
    complemento := getD item "Complemento" (.vStr "")
    distrito_destinatario_doc := getD item "Distrito destinatário" (.vStr "")
    cidade_destino := getD item "Cidade Destino" (.vStr "")
    tres_segmentos := getD item "3 Segmentos" (.vStr "")
    tempo_digitalizacao := converterTempo (getD item "Tempo de digitalização" .vNone)
    tempo_pedido_parado := getD item "Tempo de Pedido parado" (.vStr "")
    digitalizador := getD item "Digitalizador" (.vStr "")
    base_destino := getD item "Base Destino" (.vStr "")
    base_escaneamento :=
      if pyTruthy (getD item "Base de escaneamento" (.vStr "")) then
        getD item "Base de escaneamento" (.vStr "")
      else getD item "Base Destino" (.vStr "")
    esta_com_motorista := fr.1
    updated_at := hoje }

/-- Lines 567-666: one record of the per-record fallback; a raised store
exception (`falha`) is swallowed, leaving state and counters unchanged.
`find_one` then `update_one`/`insert_one`; the update counter increments
unconditionally on the update path (lines 658-659). -/
def fallbackItem (hoje : DT) (falha : Bool) (s : Estado) (item : Row) :
    Estado × Nat × Nat :=
  if falha then (s, 0, 0)
  else
    let numero := numeroPedido item
    if numero == "" then (s, 0, 0)
    else
      let campos := buildDocFallback hoje item
      match lookupDoc s numero with
      | some old => (replaceDoc numero { campos := campos, created_at := old.created_at } s, 0, 1)
      | none => (s ++ [(numero, { campos := campos, created_at := hoje })], 1, 0)

def fallbackLoop (hoje : DT) (falhaItem : Nat → Bool) :
    Nat → Estado → List Row → Estado × Nat × Nat
  | _, s, [] => (s, 0, 0)
  | j, s, item :: rest =>
    let one := fallbackItem hoje (falhaItem j) s item
    let r := fallbackLoop hoje falhaItem (j + 1) one.1 rest
    (r.1, one.2.1 + r.2.1, one.2.2 + r.2.2)

/-- Lines 466-666: one 1000-record chunk: build the bulk operations; no
store call when there are none; otherwise bulk-write, falling back to the
per-record loop over the whole chunk when the bulk write raises. -/
def processarChunkSalvar (hoje : DT) (falhaBulk : Bool) (falhaItem : Nat → Bool)
    (s : Estado) (chunkRows : List Row) : Estado × Nat × Nat :=
  let ops := chunkRows.filterMap (buildOpBulk hoje)
  if ops.isEmpty then (s, 0, 0)
  else if !falhaBulk then aplicarOps hoje s ops
  else fallbackLoop hoje falhaItem 0 s chunkRows

def chunksOfAux (n : Nat) : Nat → List α → List (List α)
  | _, [] => []
  | 0, x :: xs => [x :: xs]
  | fuel + 1, x :: xs => (x :: xs.take (n - 1)) :: chunksOfAux n fuel (xs.drop (n - 1))

/-- `range(0, len(data), chunk_size)` slicing: `data[i:i+chunk_size]`
chunks in order.  Structured with a fuel argument (one list element
consumed per step bounds the recursion), so it evaluates by reduction. -/
def chunksOf (n : Nat) (l : List α) : List (List α) := chunksOfAux n l.length l

def salvarLoop (hoje : DT) (falhaBulk : Nat → Bool) (falhaItem : Nat → Nat → Bool) :
    Nat → Estado → List (List Row) → Estado × Nat × Nat
  | _, s, [] => (s, 0, 0)
  | i, s, ch :: rest =>
    let one := processarChunkSalvar hoje (falhaBulk i) (falhaItem i) s ch
    let r := salvarLoop hoje falhaBulk falhaItem (i + 1) one.1 rest
    (r.1, one.2.1 + r.2.1, one.2.2 + r.2.2)

/-- `_salvar_na_colecao`: the final state and the returned summary, which
is exactly `{"saved": upserted-or-inserted, "updated": modified}`. -/
def salvarNaColecao (falhaBulk : Nat → Bool) (falhaItem : Nat → Nat → Bool)
    (s : Estado) (dados : List Row) (hoje : DT) : Estado × Nat × Nat :=
  salvarLoop hoje falhaBulk falhaItem 0 s (chunksOf 1000 dados)

/-- Derived: the `$set` fields of the last bulk operation on key `k`. -/
def ultimaOp (k : String) (ops : List (String × DocCampos)) : Option DocCampos :=
  ops.foldl (fun acc op => if op.1 == k then some op.2 else acc) none

/-- Derived: failures the oracle injects among `n` consecutive fallback
items starting at index `j`. -/
def contarFalhas (falhaItem : Nat → Bool) : Nat → Nat → Nat
  | _, 0 => 0
  | j, n + 1 => (if falhaItem j then 1 else 0) + contarFalhas falhaItem (j + 1) n

/-! ## Upload route — `upload_d1_excel` / `_save_chunks_optimized`
(upload.py lines 29-235)

Rows are split into 5000-row chunks; chunk documents are inserted in
bulks of 10, each failed bulk falling back to per-document inserts whose
failures are swallowed.  Store failures are an oracle: one flag per bulk
flush, one flag per chunk number.  Every insert failure is caught, so the
route always reaches the unconditional `update_d1_status(main_id,
"completed", ...)` at line 109; an empty parse result is rejected with
HTTP 400 before the batch document is created (line 74). -/

inductive StatusBatch where
  | processing
  | completed
  | errorStatus (msg : String)
deriving DecidableEq, Repr

/-- Lines 202-209 / 222-228: per-document fallback inserts; each document
either inserts (counted) or raises (logged, skipped). -/
def salvarDocsFallback (falhaDoc : Nat → Bool) (docs : List (Nat × List Row)) : Nat :=
  (docs.filter (fun d => !falhaDoc d.1)).length

/-- One `insert_d1_chunks_bulk` call with its fallback. -/
def flushChunks (falhaBulkIns : Nat → Bool) (falhaDoc : Nat → Bool) (fIdx : Nat)
    (docs : List (Nat × List Row)) : Nat :=
  if falhaBulkIns fIdx then salvarDocsFallback falhaDoc docs else docs.length

/-- Lines 177-228: accumulate chunk documents, flushing every 10 and once
more at the end. -/
def saveChunksGo (fb fd : Nat → Bool) :
    Nat → List (Nat × List Row) → List (Nat × List Row) → Nat
  | fIdx, pend, [] => if pend.isEmpty then 0 else flushChunks fb fd fIdx pend
  | fIdx, pend, doc :: rest =>
    let pend2 := pend ++ [doc]
    if 10 ≤ pend2.length then
      flushChunks fb fd fIdx pend2 + saveChunksGo fb fd (fIdx + 1) [] rest
    else saveChunksGo fb fd fIdx pend2 rest

/-- `_save_chunks_optimized`: the number of chunk documents persisted. -/
def saveChunksOptimized (fb fd : Nat → Bool) (chunksData : List (List Row)) : Nat :=
  saveChunksGo fb fd 0 [] (chunksData.enumFrom 1)

/-- `upload_d1_excel` reduced to its persistence outcome: `none` is the
HTTP 400 rejection of an empty parse (before any batch document exists);
otherwise the terminal ledger status together with `chunks_saved`.  The
`error` status is assigned only in the top-level exception handler (lines
131-141), which no store failure reaches. -/
def uploadD1 (fb fd : Nat → Bool) (dadosProcessados : List Row) :
    Option (StatusBatch × Nat) :=
  if dadosProcessados.length == 0 then none
  else
    let chunksData := chunksOf 5000 dadosProcessados
    some (StatusBatch.completed, saveChunksOptimized fb fd chunksData)

/-! ## Basic lemmas about the row model -/

theorem getVal_setField_self (r : Row) (k : String) (v : PyVal) :
    getVal (setField r k v) k = some v := by
  induction r with
  | nil => simp [setField, getVal]
  | cons p ps ih =>
    by_cases h : p.1 = k
    · simp [setField, h, getVal]
    · simp [setField, h, getVal, ih]

theorem getVal_setField_ne (r : Row) (k k2 : String) (v : PyVal) (h : k2 ≠ k) :
    getVal (setField r k v) k2 = getVal r k2 := by
  induction r with
  | nil => simp [setField, getVal, Ne.symm h]
  | cons p ps ih =>
    by_cases hp : p.1 = k
    · subst hp
      simp [setField, getVal, Ne.symm h]
    · simp only [setField, beq_iff_eq, hp, if_false]
      by_cases hq : p.1 = k2
      · simp [getVal, hq]
      · simp [getVal, hq, ih]

theorem getVal_eraseField_ne (r : Row) (k k2 : String) (h : k2 ≠ k) :
    getVal (eraseField r k) k2 = getVal r k2 := by
  induction r with
  | nil => rfl
  | cons p ps ih =>
    by_cases hp : p.1 = k
    · have h2 : (p.1 == k2) = false := by
        rw [beq_eq_false_iff_ne, hp]
        exact Ne.symm h
      simp only [eraseField, List.filter_cons] at ih ⊢
      simp only [bne_iff_ne, ne_eq, hp, not_true_eq_false, if_false]
      simp [getVal, h2, ih]
    · simp only [eraseField, List.filter_cons] at ih ⊢
      simp only [bne_iff_ne, ne_eq, hp, not_false_eq_true, if_true]
      by_cases hq : p.1 = k2
      · simp [getVal, hq]
      · simp [getVal, hq, ih]

theorem campo_marcar (r : Row) :
    campo (marcarMotorista r) "Número de pedido JMS" =
      campo r "Número de pedido JMS" := by
  unfold marcarMotorista campo getD
  rw [getVal_setField_ne _ _ _ _ (by decide), getVal_eraseField_ne _ _ _ (by decide)]

theorem numeroPedido_marcar (r : Row) :
    numeroPedido (marcarMotorista r) = numeroPedido r := campo_marcar r

/-! ## Lemmas about the driver decision and the merged record -/

theorem getVal_registro_esta (item ped : Row) :
    getVal (registroFinal item ped) "_esta_com_motorista" =
      some (.vBool (decisaoDe item ped).1) := rfl

theorem getVal_registro_resp (item ped : Row) :
    getVal (registroFinal item ped) "Responsável pela entrega" =
      some (.vStr (decisaoDe item ped).2) := rfl

theorem decisao_base_mismatch (c d t be r bc : String)
    (h : pyUpper (pyStrip be) ≠ pyUpper (pyStrip bc)) :
    decisaoMotorista c d t be r bc = (false, "") := by
  have hb : (pyUpper (pyStrip be) == pyUpper (pyStrip bc)) = false :=
    beq_eq_false_iff_ne.mpr h
  simp [decisaoMotorista, hb]

theorem decisao_base_empty (c d t be r bc : String)
    (h : be = "" ∨ bc = "") :
    decisaoMotorista c d t be r bc = (false, "") := by
  rcases h with h | h
  · simp [decisaoMotorista, h]
  · simp [decisaoMotorista, h]

theorem decisao_true_bases (c d t be r bc : String)
    (h : (decisaoMotorista c d t be r bc).1 = true) :
    be ≠ "" ∧ bc ≠ "" ∧ pyUpper (pyStrip be) = pyUpper (pyStrip bc) := by
  by_cases hbe : be = ""
  · rw [decisao_base_empty c d t be r bc (Or.inl hbe)] at h
    exact absurd h (by simp)
  by_cases hbc : bc = ""
  · rw [decisao_base_empty c d t be r bc (Or.inr hbc)] at h
    exact absurd h (by simp)
  by_cases heq : pyUpper (pyStrip be) = pyUpper (pyStrip bc)
  · exact ⟨hbe, hbc, heq⟩
  · rw [decisao_base_mismatch c d t be r bc heq] at h
    exact absurd h (by simp)

theorem processar_eq_some (founds : List (String × Row)) (item ped : Row)
    (hnum : numeroPedido item ≠ "")
    (hchild : isChild (numeroPedido item) = false)
    (hfound : lookupFound founds (numeroPedido item) = some ped) :
    processarItemBipagem founds item = some (registroFinal item ped) := by
  simp [processarItemBipagem, hnum, hchild, hfound]

/-! ## C2 — the problematic-package tier is dead code -/

/-- A resolved scan row that should reach tier 3: empty courier,
digitizer different from the reference responsible, problematic-package
bipe type, scan base equal to the delivery base. -/
def c2Item : Row :=
  [("Número de pedido JMS", .vStr "888001152307637"),
   ("Correio de coleta ou entrega", .vStr ""),
   ("Digitalizador", .vStr "ANA"),
   ("Tipo de bipagem", .vStr "Bipe de pacote problemático"),
   ("Base de escaneamento", .vStr "SC CAMPINAS"),
   ("Tempo de digitalização", .vStr "2024-01-01 10:00:00")]

def c2Ped : Row :=
  [("Responsável pela entrega", .vStr "BRUNO"),
   ("Base de entrega", .vStr "SC CAMPINAS")]

/-- C2 (failing input): line 328 uppercases the bipe type and then tests
the lowercase needles, so the problematic-package validation is always
false and tier 3 never fires.  On a row whose bipe type contains
"pacote problemático" case-insensitively (last two conjuncts show the
needle matches the raw type and a case-normalized test would succeed),
with matching bases, empty courier and digitizer ≠ responsible, the code
produces `hasDriver = false` and an empty driver, while the claim's tier
3 requires `hasDriver = true` with the reference value `"BRUNO"`. -/
theorem c2_tier3_dead_code :
    processarItemBipagem [("888001152307637", c2Ped)] c2Item =
      some (registroFinal c2Item c2Ped)
  ∧ getVal (registroFinal c2Item c2Ped) "_esta_com_motorista" = some (.vBool false)
  ∧ getVal (registroFinal c2Item c2Ped) "Responsável pela entrega" = some (.vStr "")
  ∧ pyUpper (pyStrip (campo c2Item "Base de escaneamento")) =
      pyUpper (pyStrip (campo c2Ped "Base de entrega"))
  ∧ pyInStr "pacote problemático" (campo c2Item "Tipo de bipagem") = true
  ∧ pyInStr (pyUpper "pacote problemático")
      (pyUpper (pyStrip (campo c2Item "Tipo de bipagem"))) = true
  ∧ pyInStr "pacote problemático"
      (pyUpper (pyStrip (campo c2Item "Tipo de bipagem"))) = false
  ∧ pyInStr "bipe de pacote problemático"
      (pyUpper (pyStrip (campo c2Item "Tipo de bipagem"))) = false := by
  decide

/-! ## C3 — a base mismatch forces "no driver" -/

/-- C3: for every resolved scan row with a matching reference row, when
the scan base (scan-base field with fallback to destination base) differs
from the reference delivery base after trimming and upper-casing, the
produced record has `_esta_com_motorista = false` and an empty
`Responsável pela entrega` — whatever the courier, digitizer and
bipe-type fields hold. -/
theorem c3_base_mismatch_sem_motorista (founds : List (String × Row))
    (item ped : Row)
    (hnum : numeroPedido item ≠ "")
    (hchild : isChild (numeroPedido item) = false)
    (hfound : lookupFound founds (numeroPedido item) = some ped)
    (hbase : pyUpper (pyStrip (baseEscaneamentoDe item)) ≠
      pyUpper (pyStrip (campo ped "Base de entrega"))) :
    processarItemBipagem founds item = some (registroFinal item ped)
  ∧ getVal (registroFinal item ped) "_esta_com_motorista" = some (.vBool false)
  ∧ getVal (registroFinal item ped) "Responsável pela entrega" = some (.vStr "") := by
  have hd : decisaoDe item ped = (false, "") :=
    decisao_base_mismatch _ _ _ _ _ _ hbase
  refine ⟨processar_eq_some founds item ped hnum hchild hfound, ?_, ?_⟩
  · rw [getVal_registro_esta, hd]
  · rw [getVal_registro_resp, hd]

/-- C3 witness: a concrete row with a non-empty courier and a mismatched
base is produced with `hasDriver = false` and an empty driver. -/
theorem c3_base_mismatch_sem_motorista_witness :
    processarItemBipagem
      [("123", [("Responsável pela entrega", .vStr "BRUNO"),
                ("Base de entrega", .vStr "SC SOROCABA")])]
      [("Número de pedido JMS", .vStr "123"),
       ("Correio de coleta ou entrega", .vStr "CARLOS"),
       ("Base de escaneamento", .vStr "SC CAMPINAS")] =
      some (registroFinal
        [("Número de pedido JMS", .vStr "123"),
         ("Correio de coleta ou entrega", .vStr "CARLOS"),
         ("Base de escaneamento", .vStr "SC CAMPINAS")]
        [("Responsável pela entrega", .vStr "BRUNO"),
         ("Base de entrega", .vStr "SC SOROCABA")])
  ∧ getVal (registroFinal
        [("Número de pedido JMS", .vStr "123"),
         ("Correio de coleta ou entrega", .vStr "CARLOS"),
         ("Base de escaneamento", .vStr "SC CAMPINAS")]
        [("Responsável pela entrega", .vStr "BRUNO"),
         ("Base de entrega", .vStr "SC SOROCABA")])
      "_esta_com_motorista" = some (.vBool false)
  ∧ getVal (registroFinal
        [("Número de pedido JMS", .vStr "123"),
         ("Correio de coleta ou entrega", .vStr "CARLOS"),
         ("Base de escaneamento", .vStr "SC CAMPINAS")]
        [("Responsável pela entrega", .vStr "BRUNO"),
         ("Base de entrega", .vStr "SC SOROCABA")])
      "Responsável pela entrega" = some (.vStr "") :=
  c3_base_mismatch_sem_motorista _ _ _ (by decide) (by decide) (by decide) (by decide)

/-! ## C10 — empty bases force "no driver"; a driver needs equal bases -/

/-- C10: with a matching reference row, if the scan base (with its
destination-base fallback) or the reference delivery base is empty the
record is produced with `hasDriver = false` and an empty driver, even
when the courier field is non-empty; and conversely a record produced
with `hasDriver = true` has both bases non-empty and equal after trimming
and upper-casing. -/
theorem c10_base_vazia_sem_motorista (founds : List (String × Row))
    (item ped : Row)
    (hnum : numeroPedido item ≠ "")
    (hchild : isChild (numeroPedido item) = false)
    (hfound : lookupFound founds (numeroPedido item) = some ped) :
    (baseEscaneamentoDe item = "" ∨ campo ped "Base de entrega" = "" →
      processarItemBipagem founds item = some (registroFinal item ped)
      ∧ getVal (registroFinal item ped) "_esta_com_motorista" = some (.vBool false)
      ∧ getVal (registroFinal item ped) "Responsável pela entrega" = some (.vStr ""))
  ∧ (getVal (registroFinal item ped) "_esta_com_motorista" = some (.vBool true) →
      baseEscaneamentoDe item ≠ "" ∧ campo ped "Base de entrega" ≠ "" ∧
        pyUpper (pyStrip (baseEscaneamentoDe item)) =
          pyUpper (pyStrip (campo ped "Base de entrega"))) := by
  constructor
  · intro h
    have hd : decisaoDe item ped = (false, "") :=
      decisao_base_empty _ _ _ _ _ _ h
    refine ⟨processar_eq_some founds item ped hnum hchild hfound, ?_, ?_⟩
    · rw [getVal_registro_esta, hd]
    · rw [getVal_registro_resp, hd]
  · intro h
    rw [getVal_registro_esta] at h
    have h1 : (decisaoDe item ped).1 = true := by
      have := Option.some.inj h
      simpa using congrArg (fun v => match v with | PyVal.vBool b => b | _ => false) this
    exact decisao_true_bases _ _ _ _ _ _ h1

/-- C10 witness: non-empty courier but an empty reference delivery base
still yields `hasDriver = false` and an empty driver. -/
theorem c10_base_vazia_sem_motorista_witness :
    (baseEscaneamentoDe [("Número de pedido JMS", .vStr "123"),
        ("Correio de coleta ou entrega", .vStr "CARLOS"),
        ("Base de escaneamento", .vStr "SC CAMPINAS")] = "" ∨
      campo [("Responsável pela entrega", .vStr "BRUNO"),
        ("Base de entrega", .vStr "")] "Base de entrega" = "" →
      processarItemBipagem
        [("123", [("Responsável pela entrega", .vStr "BRUNO"),
                  ("Base de entrega", .vStr "")])]
        [("Número de pedido JMS", .vStr "123"),
         ("Correio de coleta ou entrega", .vStr "CARLOS"),
         ("Base de escaneamento", .vStr "SC CAMPINAS")] =
        some (registroFinal
          [("Número de pedido JMS", .vStr "123"),
           ("Correio de coleta ou entrega", .vStr "CARLOS"),
           ("Base de escaneamento", .vStr "SC CAMPINAS")]
          [("Responsável pela entrega", .vStr "BRUNO"),
           ("Base de entrega", .vStr "")])
      ∧ getVal (registroFinal
          [("Número de pedido JMS", .vStr "123"),
           ("Correio de coleta ou entrega", .vStr "CARLOS"),
           ("Base de escaneamento", .vStr "SC CAMPINAS")]
          [("Responsável pela entrega", .vStr "BRUNO"),
           ("Base de entrega", .vStr "")])
        "_esta_com_motorista" = some (.vBool false)
      ∧ getVal (registroFinal
          [("Número de pedido JMS", .vStr "123"),
           ("Correio de coleta ou entrega", .vStr "CARLOS"),
           ("Base de escaneamento", .vStr "SC CAMPINAS")]
          [("Responsável pela entrega", .vStr "BRUNO"),
           ("Base de entrega", .vStr "")])
        "Responsável pela entrega" = some (.vStr ""))
  ∧ (getVal (registroFinal
        [("Número de pedido JMS", .vStr "123"),
         ("Correio de coleta ou entrega", .vStr "CARLOS"),
         ("Base de escaneamento", .vStr "SC CAMPINAS")]
        [("Responsável pela entrega", .vStr "BRUNO"),
         ("Base de entrega", .vStr "")])
      "_esta_com_motorista" = some (.vBool true) →
      baseEscaneamentoDe [("Número de pedido JMS", .vStr "123"),
        ("Correio de coleta ou entrega", .vStr "CARLOS"),
        ("Base de escaneamento", .vStr "SC CAMPINAS")] ≠ "" ∧
        campo [("Responsável pela entrega", .vStr "BRUNO"),
          ("Base de entrega", .vStr "")] "Base de entrega" ≠ "" ∧
        pyUpper (pyStrip (baseEscaneamentoDe [("Número de pedido JMS", .vStr "123"),
          ("Correio de coleta ou entrega", .vStr "CARLOS"),
          ("Base de escaneamento", .vStr "SC CAMPINAS")])) =
          pyUpper (pyStrip (campo [("Responsável pela entrega", .vStr "BRUNO"),
            ("Base de entrega", .vStr "")] "Base de entrega"))) :=
  c10_base_vazia_sem_motorista _ _ _ (by decide) (by decide) (by decide)

/-! ## C6 — records without a reference counterpart are dropped -/

theorem lookupFound_mem (l : List (String × Row)) (k : String) (r : Row)
    (h : lookupFound l k = some r) : (k, r) ∈ l := by
  induction l with
  | nil => exact absurd h (by simp [lookupFound])
  | cons p ps ih =>
    obtain ⟨a, b⟩ := p
    by_cases hp : a = k
    · simp only [lookupFound, hp, beq_self_eq_true, if_true, Option.some.injEq] at h
      subst hp
      subst h
      exact List.mem_cons_self _ _
    · simp only [lookupFound, beq_iff_eq, hp, if_false] at h
      exact List.mem_cons_of_mem _ (ih h)

theorem mem_scanChunk (wanted : List String) (ch : List Row)
    (found : List (String × Row)) (p : String × Row)
    (h : p ∈ scanChunk wanted found ch) :
    p ∈ found ∨ (p.2 ∈ ch ∧ p.1 = numeroPedido p.2) := by
  induction ch generalizing found with
  | nil => exact Or.inl h
  | cons reg rest ih =>
    unfold scanChunk at h
    by_cases hc : (wanted.contains (numeroPedido reg) &&
        (lookupFound found (numeroPedido reg)).isNone) = true
    · rw [if_pos hc] at h
      by_cases hstop : wanted.length ≤ (found ++ [(numeroPedido reg, reg)]).length
      · rw [if_pos hstop] at h
        rcases List.mem_append.mp h with h2 | h2
        · exact Or.inl h2
        · right
          have := List.mem_singleton.mp h2
          subst this
          exact ⟨List.mem_cons_self _ _, rfl⟩
      · rw [if_neg hstop] at h
        rcases ih _ h with h2 | h2
        · rcases List.mem_append.mp h2 with h3 | h3
          · exact Or.inl h3
          · right
            have := List.mem_singleton.mp h3
            subst this
            exact ⟨List.mem_cons_self _ _, rfl⟩
        · exact Or.inr ⟨List.mem_cons_of_mem _ h2.1, h2.2⟩
    · rw [if_neg hc] at h
      rcases ih _ h with h2 | h2
      · exact Or.inl h2
      · exact Or.inr ⟨List.mem_cons_of_mem _ h2.1, h2.2⟩

theorem mem_scanChunks (wanted : List String) (chunks : List (List Row))
    (found : List (String × Row)) (p : String × Row)
    (h : p ∈ scanChunks wanted found chunks) :
    p ∈ found ∨ ∃ ch ∈ chunks, p.2 ∈ ch ∧ p.1 = numeroPedido p.2 := by
  induction chunks generalizing found with
  | nil => exact Or.inl h
  | cons ch rest ih =>
    unfold scanChunks at h
    by_cases hstop : wanted.length ≤ (scanChunk wanted found ch).length
    · rw [if_pos hstop] at h
      rcases mem_scanChunk wanted ch found p h with h2 | h2
      · exact Or.inl h2
      · exact Or.inr ⟨ch, List.mem_cons_self _ _, h2⟩
    · rw [if_neg hstop] at h
      rcases ih _ h with h2 | h2
      · rcases mem_scanChunk wanted ch found p h2 with h3 | h3
        · exact Or.inl h3
        · exact Or.inr ⟨ch, List.mem_cons_self _ _, h3⟩
      · rcases h2 with ⟨ch2, hch2, h3⟩
        exact Or.inr ⟨ch2, List.mem_cons_of_mem _ hch2, h3⟩

theorem getVal_registro_numero (item ped : Row) :
    getVal (registroFinal item ped) "Número de pedido JMS" =
      some (.vStr (numeroPedido item)) := rfl

theorem processar_some_inv (founds : List (String × Row)) (item r : Row)
    (h : processarItemBipagem founds item = some r) :
    ∃ ped, lookupFound founds (numeroPedido item) = some ped ∧
      r = registroFinal item ped := by
  unfold processarItemBipagem at h
  by_cases h1 : numeroPedido item == ""
  · rw [if_pos h1] at h
    exact absurd h (by simp)
  · rw [Bool.not_eq_true] at h1
    rw [if_neg (by simp [h1])] at h
    by_cases h2 : isChild (numeroPedido item)
    · rw [if_pos h2] at h
      exact absurd h (by simp)
    · rw [if_neg h2] at h
      cases hl : lookupFound founds (numeroPedido item) with
      | none =>
        rw [hl] at h
        exact absurd h (by simp)
      | some ped =>
        rw [hl] at h
        exact ⟨ped, rfl, (Option.some.inj h).symm⟩

/-- C6: every record the Cross-Reference Joiner outputs carries a
shipment key that occurs in the reference chunk store; hence a resolved
record whose key has no counterpart there is absent from the joiner's
output (and so from everything persisted downstream), without any
error being raised. -/
theorem c6_unmatched_dropped (chunks : List (List Row)) (dados : List Row)
    (r : Row) (h : r ∈ buscarDadosCompletos chunks dados) :
    ∃ ch ∈ chunks, ∃ reg ∈ ch,
      getVal r "Número de pedido JMS" = some (.vStr (numeroPedido reg)) := by
  unfold buscarDadosCompletos at h
  rcases List.mem_filterMap.mp h with ⟨item, _, hsome⟩
  rcases processar_some_inv _ item r hsome with ⟨ped, hlook, hr⟩
  have hmem := lookupFound_mem _ _ _ hlook
  rcases mem_scanChunks _ chunks [] _ hmem with h2 | h2
  · exact absurd h2 (List.not_mem_nil _)
  · rcases h2 with ⟨ch, hch, hreg, hkey⟩
    have hkey2 : numeroPedido item = numeroPedido ped := hkey
    have hreg2 : ped ∈ ch := hreg
    refine ⟨ch, hch, ped, hreg2, ?_⟩
    rw [hr, getVal_registro_numero, hkey2]

/-- C6 witness: a concrete joiner run in which the matched record keeps a
store key. -/
theorem c6_unmatched_dropped_witness :
    ∃ ch ∈ [[([("Número de pedido JMS", PyVal.vStr "123"),
               ("Base de entrega", PyVal.vStr "SC CAMPINAS")] : Row)]],
      ∃ reg ∈ ch,
        getVal (registroFinal
            [("Número de pedido JMS", PyVal.vStr "123"),
             ("Correio de coleta ou entrega", PyVal.vStr "CARLOS")]
            [("Número de pedido JMS", PyVal.vStr "123"),
             ("Base de entrega", PyVal.vStr "SC CAMPINAS")])
          "Número de pedido JMS" = some (.vStr (numeroPedido reg)) :=
  c6_unmatched_dropped
    [[([("Número de pedido JMS", PyVal.vStr "123"),
        ("Base de entrega", PyVal.vStr "SC CAMPINAS")] : Row)]]
    [[("Número de pedido JMS", PyVal.vStr "123"),
      ("Correio de coleta ou entrega", PyVal.vStr "CARLOS")]]
    (registroFinal
      [("Número de pedido JMS", PyVal.vStr "123"),
       ("Correio de coleta ou entrega", PyVal.vStr "CARLOS")]
      [("Número de pedido JMS", PyVal.vStr "123"),
       ("Base de entrega", PyVal.vStr "SC CAMPINAS")])
    (by decide)

/-! ## C9 — Aging Calculator -/

/-- C9: every record's stalled bucket is the string
`"Exceed N days with no track"` with `N = (now − timestamp).days` (floor
division of the second difference by 86400) computed from the parsed scan
timestamp; a timestamp equal to now yields N = 0, and an absent, falsy,
non-datetime or unparseable timestamp yields a `None` bucket rather than
an error. -/
theorem c9_aging_bucket (hoje : DT) (item : Row) :
    (pyTruthy (getD item "Tempo de digitalização" .vNone) = false →
      bucketTempoParado hoje item = .vNone)
  ∧ (∀ s, getD item "Tempo de digitalização" .vNone = .vStr s → tryFormats s = none →
      bucketTempoParado hoje item = .vNone)
  ∧ (∀ n : Int, getD item "Tempo de digitalização" .vNone = .vInt n →
      bucketTempoParado hoje item = .vNone)
  ∧ (∀ t, getD item "Tempo de digitalização" .vNone = .vDT t →
      bucketTempoParado hoje item =
        .vStr ("Exceed " ++ toString (diffDays hoje t) ++ " days with no track"))
  ∧ (∀ s t, getD item "Tempo de digitalização" .vNone = .vStr s →
      tryFormats s = some t →
      bucketTempoParado hoje item =
        .vStr ("Exceed " ++ toString (diffDays hoje t) ++ " days with no track"))
  ∧ (getD item "Tempo de digitalização" .vNone = .vDT hoje →
      bucketTempoParado hoje item = .vStr "Exceed 0 days with no track")
  ∧ calcularTempoParado hoje [item] =
      [setField item "Tempo de Pedido parado" (bucketTempoParado hoje item)] := by
  refine ⟨?_, ?_, ?_, ?_, ?_, ?_, rfl⟩
  · intro h
    simp [bucketTempoParado, h]
  · intro s hs hforms
    rcases hcase : pyTruthy (getD item "Tempo de digitalização" .vNone) with _ | _
    · simp [bucketTempoParado, hcase]
    · simp [bucketTempoParado, hcase, hs, hforms]
  · intro n hn
    rcases hcase : pyTruthy (getD item "Tempo de digitalização" .vNone) with _ | _
    · simp [bucketTempoParado, hcase]
    · simp [bucketTempoParado, hcase, hn]
  · intro t ht
    simp [bucketTempoParado, ht, pyTruthy]
  · intro s t hs hforms
    have hsne : s ≠ "" := by
      intro hempty
      rw [hempty] at hforms
      exact Option.noConfusion ((show tryFormats "" = none from rfl) ▸ hforms)
    simp [bucketTempoParado, hs, hforms, pyTruthy, hsne]
  · intro ht
    have hz : diffDays hoje hoje = 0 := by
      simp [diffDays]
    simp only [bucketTempoParado, ht, pyTruthy, Bool.not_true, Bool.false_eq_true,
      if_false, hz]
    decide

/-! ## C5 — child shipments are dropped by the resolver -/

theorem prepararItem_some (item : Row) (k : String) (t : DT)
    (h : prepararItem item = some (k, t)) :
    k = numeroPedido item ∧ numeroPedido item ≠ "" ∧
      isChild (numeroPedido item) = false := by
  unfold prepararItem at h
  by_cases h1 : (numeroPedido item == "") = true
  · rw [if_pos h1] at h
    exact absurd h (by simp)
  · rw [if_neg h1] at h
    by_cases h2 : isChild (numeroPedido item) = true
    · rw [if_pos h2] at h
      exact absurd h (by simp)
    · rw [if_neg h2] at h
      refine ⟨?_, by simpa using h1, by simpa using h2⟩
      by_cases h3 : (!pyTruthy (getD item "Tempo de digitalização" .vNone)) = true
      · rw [if_pos h3] at h
        exact absurd h (by simp)
      · rw [if_neg h3] at h
        cases h4 : parseTempo (getD item "Tempo de digitalização" .vNone) with
        | none =>
          rw [h4] at h
          exact absurd h (by simp)
        | some t2 =>
          rw [h4] at h
          exact (congrArg Prod.fst (Option.some.inj h)).symm

theorem addToGroup_inv (k : String) (q : Row × DT)
    (gs : List (String × List (Row × DT)))
    (hq : prepararItem q.1 = some (k, q.2))
    (hgs : ∀ kg ∈ gs, ∀ p ∈ kg.2, prepararItem p.1 = some (kg.1, p.2)) :
    ∀ kg ∈ addToGroup k q gs, ∀ p ∈ kg.2, prepararItem p.1 = some (kg.1, p.2) := by
  induction gs with
  | nil =>
    intro kg hkg p hp
    simp only [addToGroup, List.mem_singleton] at hkg
    subst hkg
    simp only [List.mem_singleton] at hp
    subst hp
    exact hq
  | cons g rest ih =>
    intro kg hkg p hp
    unfold addToGroup at hkg
    by_cases hg : (g.1 == k) = true
    · rw [if_pos hg] at hkg
      rcases List.mem_cons.mp hkg with h2 | h2
      · subst h2
        rcases List.mem_append.mp hp with h3 | h3
        · exact hgs g (List.mem_cons_self _ _) p h3
        · have := List.mem_singleton.mp h3
          subst this
          rw [← beq_iff_eq.mp hg] at hq
          exact hq
      · exact hgs kg (List.mem_cons_of_mem _ h2) p hp
    · rw [if_neg hg] at hkg
      rcases List.mem_cons.mp hkg with h2 | h2
      · subst h2
        exact hgs kg (List.mem_cons_self _ _) p hp
      · exact ih (fun kg2 hkg2 => hgs kg2 (List.mem_cons_of_mem _ hkg2)) kg h2 p hp

theorem agrupar_inv (dados : List Row) :
    ∀ kg ∈ agrupar dados, ∀ p ∈ kg.2, prepararItem p.1 = some (kg.1, p.2) := by
  unfold agrupar
  suffices h : ∀ (gs : List (String × List (Row × DT))),
      (∀ kg ∈ gs, ∀ p ∈ kg.2, prepararItem p.1 = some (kg.1, p.2)) →
      ∀ kg ∈ dados.foldl
        (fun gs item =>
          match prepararItem item with
          | some kt => addToGroup kt.1 (item, kt.2) gs
          | none => gs) gs,
        ∀ p ∈ kg.2, prepararItem p.1 = some (kg.1, p.2) by
    exact h [] (by simp)
  induction dados with
  | nil => intro gs hgs; simpa using hgs
  | cons item rest ih =>
    intro gs hgs
    simp only [List.foldl_cons]
    cases hpi : prepararItem item with
    | none => exact ih gs hgs
    | some kt =>
      refine ih _ ?_
      have : prepararItem (item, kt.2).1 = some (kt.1, (item, kt.2).2) := by
        simp [hpi]
      exact addToGroup_inv kt.1 (item, kt.2) gs this hgs

theorem mem_insDesc (p q : Row × DT) (l : List (Row × DT))
    (h : q ∈ insDesc p l) : q = p ∨ q ∈ l := by
  induction l with
  | nil => simpa [insDesc] using h
  | cons x xs ih =>
    unfold insDesc at h
    by_cases hc : dtLt x.2 p.2 = true
    · rw [if_pos hc] at h
      rcases List.mem_cons.mp h with h2 | h2
      · exact Or.inl h2
      · exact Or.inr h2
    · rw [if_neg hc] at h
      rcases List.mem_cons.mp h with h2 | h2
      · exact Or.inr (h2 ▸ List.mem_cons_self _ _)
      · rcases ih h2 with h3 | h3
        · exact Or.inl h3
        · exact Or.inr (List.mem_cons_of_mem _ h3)

theorem mem_sortDescTempo (l : List (Row × DT)) (q : Row × DT)
    (h : q ∈ sortDescTempo l) : q ∈ l := by
  unfold sortDescTempo at h
  suffices hgen : ∀ (l : List (Row × DT)) (acc : List (Row × DT)),
      q ∈ l.foldl (fun acc p => insDesc p acc) acc → q ∈ acc ∨ q ∈ l by
    rcases hgen l [] h with h2 | h2
    · exact absurd h2 (List.not_mem_nil _)
    · exact h2
  intro l2
  induction l2 with
  | nil => intro acc h2; exact Or.inl h2
  | cons x xs ih =>
    intro acc h2
    simp only [List.foldl_cons] at h2
    rcases ih _ h2 with h3 | h3
    · rcases mem_insDesc x q acc h3 with h4 | h4
      · exact Or.inr (h4 ▸ List.mem_cons_self _ _)
      · exact Or.inl h4
    · exact Or.inr (List.mem_cons_of_mem _ h3)

theorem dedup_mem_inv (dados : List Row) (r : Row)
    (h : r ∈ deduplicarPorDataRecente dados) :
    ∃ kg ∈ agrupar dados, ∃ melhor,
      (sortDescTempo kg.2).head? = some melhor ∧ melhor ∈ kg.2 ∧
        r = marcarMotorista melhor.1 ∧ numeroPedido melhor.1 = kg.1 := by
  unfold deduplicarPorDataRecente at h
  rcases List.mem_filterMap.mp h with ⟨kg, hkg, hsome⟩
  cases hsort : sortDescTempo kg.2 with
  | nil =>
    rw [hsort] at hsome
    exact absurd hsome (by simp)
  | cons melhor rest =>
    rw [hsort] at hsome
    have hmem : melhor ∈ kg.2 := by
      refine mem_sortDescTempo kg.2 melhor ?_
      rw [hsort]
      exact List.mem_cons_self _ _
    have hprep := agrupar_inv dados kg hkg melhor hmem
    refine ⟨kg, hkg, melhor, by rw [hsort]; rfl, hmem,
      (Option.some.inj hsome).symm, ?_⟩
    exact (prepararItem_some melhor.1 kg.1 melhor.2 hprep).1.symm

/-- C5: every row the Recency Resolver outputs carries a non-empty,
non-child shipment id, so rows whose id matches a child pattern never
appear in the output; the concrete ids of the spec behave as stated, and
on a two-row input the child `"123-001"` is dropped while `"123"` is
kept. -/
theorem c5_filhos_descartados (dados : List Row) :
    (∀ r ∈ deduplicarPorDataRecente dados,
      numeroPedido r ≠ "" ∧ isChild (numeroPedido r) = false)
  ∧ isChild "123-001" = true ∧ isChild "123.2" = true ∧ isChild "123_9" = true
  ∧ isChild "123A" = true ∧ isChild "123" = false ∧ isChild "123456789" = false
  ∧ deduplicarPorDataRecente
      [[("Número de pedido JMS", .vStr "123-001"),
        ("Tempo de digitalização", .vStr "2024-01-05 10:00:00"),
        ("Correio de coleta ou entrega", .vStr "CARLOS")],
       [("Número de pedido JMS", .vStr "123"),
        ("Tempo de digitalização", .vStr "2024-01-01 10:00:00"),
        ("Correio de coleta ou entrega", .vStr "CARLOS")]] =
      [[("Número de pedido JMS", .vStr "123"),
        ("Tempo de digitalização", .vStr "2024-01-01 10:00:00"),
        ("Correio de coleta ou entrega", .vStr "CARLOS"),
        ("_tem_motorista", .vBool true)]] := by
  refine ⟨?_, by decide, by decide, by decide, by decide, by decide, by decide,
    by decide⟩
  intro r hr
  rcases dedup_mem_inv dados r hr with ⟨kg, hkg, melhor, hhead, hmem, hr2, hnum⟩
  have hprep := agrupar_inv dados kg hkg melhor hmem
  have hfacts := prepararItem_some melhor.1 kg.1 melhor.2 hprep
  have hcampo : numeroPedido r = numeroPedido melhor.1 := by
    rw [hr2]
    exact campo_marcar melhor.1
  rw [hcampo, hnum] at *
  exact ⟨hnum ▸ hfacts.2.1, hnum ▸ hfacts.2.2⟩

/-- C5 witness: instantiating the universal part on a concrete run. -/
theorem c5_filhos_descartados_witness :
    (∀ r ∈ deduplicarPorDataRecente
        [[("Número de pedido JMS", PyVal.vStr "123"),
          ("Tempo de digitalização", PyVal.vStr "2024-01-01 10:00:00")]],
      numeroPedido r ≠ "" ∧ isChild (numeroPedido r) = false)
  ∧ isChild "123-001" = true ∧ isChild "123.2" = true ∧ isChild "123_9" = true
  ∧ isChild "123A" = true ∧ isChild "123" = false ∧ isChild "123456789" = false
  ∧ deduplicarPorDataRecente
      [[("Número de pedido JMS", .vStr "123-001"),
        ("Tempo de digitalização", .vStr "2024-01-05 10:00:00"),
        ("Correio de coleta ou entrega", .vStr "CARLOS")],
       [("Número de pedido JMS", .vStr "123"),
        ("Tempo de digitalização", .vStr "2024-01-01 10:00:00"),
        ("Correio de coleta ou entrega", .vStr "CARLOS")]] =
      [[("Número de pedido JMS", .vStr "123"),
        ("Tempo de digitalização", .vStr "2024-01-01 10:00:00"),
        ("Correio de coleta ou entrega", .vStr "CARLOS"),
        ("_tem_motorista", .vBool true)]] :=
  c5_filhos_descartados
    [[("Número de pedido JMS", PyVal.vStr "123"),
      ("Tempo de digitalização", PyVal.vStr "2024-01-01 10:00:00")]]

/-! ## C4 — lemmas on group lookup and the maximum of a group -/

def lookupGrupo (k : String) : List (String × List (Row × DT)) → Option (List (Row × DT))
  | [] => none
  | g :: gs => if g.1 == k then some g.2 else lookupGrupo k gs

def chavesGrupos (gs : List (String × List (Row × DT))) : List String :=
  gs.map Prod.fst

theorem lookupGrupo_none_iff (k : String) (gs : List (String × List (Row × DT))) :
    lookupGrupo k gs = none ↔ k ∉ chavesGrupos gs := by
  induction gs with
  | nil => simp [lookupGrupo, chavesGrupos]
  | cons g gs ih =>
    by_cases hg : g.1 = k
    · simp [lookupGrupo, hg, chavesGrupos]
    · simp only [lookupGrupo, beq_iff_eq, hg, if_false, chavesGrupos, List.map_cons,
        List.mem_cons, not_or]
      rw [show gs.map Prod.fst = chavesGrupos gs from rfl]
      constructor
      · intro h
        exact ⟨fun he => hg he.symm, ih.mp h⟩
      · intro h
        exact ih.mpr h.2

theorem lookup_addToGroup (k k2 : String) (q : Row × DT)
    (gs : List (String × List (Row × DT))) :
    lookupGrupo k (addToGroup k2 q gs) =
      if k = k2 then some ((lookupGrupo k gs).getD [] ++ [q])
      else lookupGrupo k gs := by
  induction gs with
  | nil =>
    by_cases hk : k = k2
    · subst hk
      simp [addToGroup, lookupGrupo]
    · have : ¬ k2 = k := fun he => hk he.symm
      simp [addToGroup, lookupGrupo, hk, this]
  | cons g gs ih =>
    unfold addToGroup
    by_cases hg : g.1 = k2
    · rw [if_pos (by simp [hg])]
      by_cases hk : k = g.1
      · have hk2 : k = k2 := hk.trans hg
        subst hk2
        simp [lookupGrupo, hg, ← hk]
      · have hkk2 : ¬ k = k2 := fun he => hk (he.trans hg.symm)
        have hgk : ¬ g.1 = k := fun he => hk he.symm
        simp [lookupGrupo, hgk, hkk2]
    · rw [if_neg (by simp [hg])]
      by_cases hk : g.1 = k
      · have hkk2 : ¬ k = k2 := fun he => hg (hk.trans he)
        simp [lookupGrupo, hk, hkk2]
      · simp [lookupGrupo, hk, ih]

theorem chaves_addToGroup (k : String) (q : Row × DT)
    (gs : List (String × List (Row × DT))) :
    chavesGrupos (addToGroup k q gs) =
      if (lookupGrupo k gs).isSome then chavesGrupos gs
      else chavesGrupos gs ++ [k] := by
  induction gs with
  | nil => simp [addToGroup, chavesGrupos, lookupGrupo]
  | cons g gs ih =>
    unfold addToGroup
    by_cases hg : g.1 = k
    · rw [if_pos (by simp [hg])]
      simp [chavesGrupos, lookupGrupo, hg]
    · rw [if_neg (by simp [hg])]
      simp only [chavesGrupos, List.map_cons, lookupGrupo, beq_iff_eq, hg, if_false]
      rw [show (addToGroup k q gs).map Prod.fst = chavesGrupos (addToGroup k q gs)
        from rfl, ih]
      by_cases hs : (lookupGrupo k gs).isSome
      · simp [hs, chavesGrupos]
      · simp [hs, chavesGrupos]

theorem agrupar_go_lookup (dados : List Row) :
    ∀ (gs : List (String × List (Row × DT))) (k : String),
      lookupGrupo k (dados.foldl
        (fun gs item =>
          match prepararItem item with
          | some kt => addToGroup kt.1 (item, kt.2) gs
          | none => gs) gs) =
      match lookupGrupo k gs with
      | some g => some (g ++ registrosDaChave dados k)
      | none =>
        if (registrosDaChave dados k).isEmpty then none
        else some (registrosDaChave dados k) := by
  induction dados with
  | nil =>
    intro gs k
    simp only [List.foldl_nil]
    cases h : lookupGrupo k gs with
    | some g => simp [registrosDaChave]
    | none => simp [registrosDaChave]
  | cons item rest ih =>
    intro gs k
    simp only [List.foldl_cons]
    cases hpi : prepararItem item with
    | none =>
      rw [ih gs k]
      have hreg : registrosDaChave (item :: rest) k = registrosDaChave rest k := by
        simp [registrosDaChave, List.filterMap_cons, hpi]
      rw [hreg]
    | some kt =>
      by_cases hk : kt.1 = k
      · have hreg : registrosDaChave (item :: rest) k =
            (item, kt.2) :: registrosDaChave rest k := by
          simp [registrosDaChave, List.filterMap_cons, hpi, hk]
        rw [ih _ k, hreg, lookup_addToGroup k kt.1 (item, kt.2) gs,
          if_pos hk.symm]
        cases hg : lookupGrupo k gs with
        | some g => simp
        | none => simp
      · have hreg : registrosDaChave (item :: rest) k = registrosDaChave rest k := by
          simp [registrosDaChave, List.filterMap_cons, hpi, hk]
        rw [ih _ k, hreg, lookup_addToGroup k kt.1 (item, kt.2) gs,
          if_neg (fun he => hk he.symm)]

theorem agrupar_lookup (dados : List Row) (k : String) :
    lookupGrupo k (agrupar dados) =
      if (registrosDaChave dados k).isEmpty then none
      else some (registrosDaChave dados k) := by
  have h := agrupar_go_lookup dados [] k
  rw [show lookupGrupo k ([] : List (String × List (Row × DT))) = none from rfl] at h
  exact h

theorem agrupar_nodup (dados : List Row) :
    (chavesGrupos (agrupar dados)).Nodup := by
  unfold agrupar
  suffices h : ∀ (gs : List (String × List (Row × DT))),
      (chavesGrupos gs).Nodup →
      (chavesGrupos (dados.foldl
        (fun gs item =>
          match prepararItem item with
          | some kt => addToGroup kt.1 (item, kt.2) gs
          | none => gs) gs)).Nodup by
    exact h [] (by simp [chavesGrupos])
  induction dados with
  | nil => intro gs hgs; simpa using hgs
  | cons item rest ih =>
    intro gs hgs
    simp only [List.foldl_cons]
    cases hpi : prepararItem item with
    | none => exact ih gs hgs
    | some kt =>
      refine ih _ ?_
      rw [chaves_addToGroup]
      by_cases hs : (lookupGrupo kt.1 gs).isSome
      · rw [if_pos hs]
        exact hgs
      · rw [if_neg hs]
        have hnone : lookupGrupo kt.1 gs = none := by
          cases h2 : lookupGrupo kt.1 gs with
          | none => rfl
          | some g => rw [h2] at hs; exact absurd rfl hs
        have hnot := (lookupGrupo_none_iff kt.1 gs).mp hnone
        refine List.Nodup.append hgs (List.nodup_singleton _) ?_
        intro a ha hb
        rw [List.mem_singleton.mp hb] at ha
        exact hnot ha

theorem lookupGrupo_mem (k : String) (g : List (Row × DT))
    (gs : List (String × List (Row × DT))) (h : lookupGrupo k gs = some g) :
    (k, g) ∈ gs := by
  induction gs with
  | nil => exact absurd h (by simp [lookupGrupo])
  | cons p ps ih =>
    obtain ⟨a, b⟩ := p
    by_cases hp : a = k
    · simp only [lookupGrupo, hp, beq_self_eq_true, if_true, Option.some.injEq] at h
      subst hp
      subst h
      exact List.mem_cons_self _ _
    · simp only [lookupGrupo, beq_iff_eq, hp, if_false] at h
      exact List.mem_cons_of_mem _ (ih h)

theorem mem_lookupGrupo_nodup (k : String) (g : List (Row × DT))
    (gs : List (String × List (Row × DT))) (hnd : (chavesGrupos gs).Nodup)
    (h : (k, g) ∈ gs) : lookupGrupo k gs = some g := by
  induction gs with
  | nil => exact absurd h (List.not_mem_nil _)
  | cons p ps ih =>
    rcases List.mem_cons.mp h with h2 | h2
    · rw [← h2]
      simp [lookupGrupo]
    · have hk : k ∈ chavesGrupos ps :=
        List.mem_map.mpr ⟨(k, g), h2, rfl⟩
      have hne : p.1 ≠ k := by
        intro he
        rw [chavesGrupos, List.map_cons] at hnd
        exact (List.nodup_cons.mp hnd).1 (he ▸ hk)
      simp only [lookupGrupo, beq_iff_eq, hne, if_false]
      exact ih (List.nodup_cons.mp hnd).2 h2

/-! Head of the stable descending sort is the first element attaining the
maximal timestamp. -/

theorem head_insDesc_eq_maxStep (p : Row × DT) (acc : List (Row × DT)) :
    (insDesc p acc).head? = maxStep acc.head? p := by
  cases acc with
  | nil => rfl
  | cons q qs =>
    unfold insDesc maxStep
    by_cases h : dtLt q.2 p.2 = true <;> simp [h]

theorem head_sort_fold (l : List (Row × DT)) :
    ∀ acc : List (Row × DT),
      (l.foldl (fun acc p => insDesc p acc) acc).head? =
        l.foldl maxStep acc.head? := by
  induction l with
  | nil => intro acc; rfl
  | cons x xs ih =>
    intro acc
    simp only [List.foldl_cons]
    rw [ih (insDesc x acc), head_insDesc_eq_maxStep]

theorem head_sortDescTempo (l : List (Row × DT)) :
    (sortDescTempo l).head? = primeiroMax l := by
  unfold sortDescTempo primeiroMax
  exact head_sort_fold l []

def maxFoldD (x : Row × DT) (xs : List (Row × DT)) : Row × DT :=
  xs.foldl (fun b q => if dtLt b.2 q.2 then q else b) x

theorem primeiroMax_cons (x : Row × DT) (xs : List (Row × DT)) :
    primeiroMax (x :: xs) = some (maxFoldD x xs) := by
  unfold primeiroMax
  simp only [List.foldl_cons]
  suffices h : ∀ (xs : List (Row × DT)) (x : Row × DT),
      xs.foldl maxStep (some x) = some (maxFoldD x xs) from h xs x
  intro xs
  induction xs with
  | nil => intro x; rfl
  | cons y ys ih =>
    intro x
    simp only [List.foldl_cons]
    by_cases h : dtLt x.2 y.2 = true
    · rw [show maxStep (some x) y = some y by simp [maxStep, h]]
      rw [ih y, show maxFoldD x (y :: ys) = maxFoldD y ys by simp [maxFoldD, h]]
    · rw [show maxStep (some x) y = some x by simp [maxStep, h]]
      rw [ih x, show maxFoldD x (y :: ys) = maxFoldD x ys by simp [maxFoldD, h]]

theorem dtLt_true_iff (a b : DT) : dtLt a b = true ↔ toSecs a < toSecs b := by
  simp [dtLt]

theorem dtLt_false_iff (a b : DT) : dtLt a b = false ↔ toSecs b ≤ toSecs a := by
  rw [← Bool.not_eq_true, dtLt_true_iff]
  omega

theorem maxFoldD_split (xs : List (Row × DT)) :
    ∀ x : Row × DT,
      ∃ l1 l2, x :: xs = l1 ++ maxFoldD x xs :: l2
        ∧ (∀ q ∈ l1, dtLt q.2 (maxFoldD x xs).2 = true)
        ∧ (∀ q ∈ l2, dtLt (maxFoldD x xs).2 q.2 = false) := by
  induction xs with
  | nil =>
    intro x
    exact ⟨[], [], rfl, by simp, by simp⟩
  | cons y ys ih =>
    intro x
    by_cases hxy : dtLt x.2 y.2 = true
    · have hm : maxFoldD x (y :: ys) = maxFoldD y ys := by simp [maxFoldD, hxy]
      rcases ih y with ⟨l1, l2, heq, h1, h2⟩
      rw [hm]
      refine ⟨x :: l1, l2, ?_, ?_, h2⟩
      · rw [List.cons_append, ← heq]
      · intro q hq
        rcases List.mem_cons.mp hq with h3 | h3
        · subst h3
          cases l1 with
          | nil =>
            have hy : y = maxFoldD y ys := by
              simpa using congrArg List.head? heq
            rw [← hy]
            exact hxy
          | cons z l1b =>
            have hz : y = z := by
              simpa using congrArg List.head? heq
            have hzm := h1 z (List.mem_cons_self _ _)
            rw [← hz] at hzm
            rw [dtLt_true_iff] at hxy hzm ⊢
            omega
        · exact h1 q h3
    · have hxyf : dtLt x.2 y.2 = false := by
        rw [← Bool.not_eq_true]
        exact hxy
      have hm : maxFoldD x (y :: ys) = maxFoldD x ys := by simp [maxFoldD, hxyf]
      rcases ih x with ⟨l1, l2, heq, h1, h2⟩
      rw [hm]
      cases l1 with
      | nil =>
        have hx : x = maxFoldD x ys := by
          simpa using congrArg List.head? heq
        have hys : ys = l2 := by
          simpa using congrArg List.tail heq
        refine ⟨[], y :: ys, by rw [← hx]; rfl, by simp, ?_⟩
        intro q hq
        rcases List.mem_cons.mp hq with h3 | h3
        · subst h3
          rw [← hx]
          exact hxyf
        · exact h2 q (hys ▸ h3)
      | cons z l1b =>
        have hz : x = z := by
          simpa using congrArg List.head? heq
        have hys : ys = l1b ++ maxFoldD x ys :: l2 := by
          simpa using congrArg List.tail heq
        refine ⟨x :: y :: l1b, l2, ?_, ?_, h2⟩
        · rw [show (x :: y :: l1b) ++ maxFoldD x ys :: l2 =
            x :: y :: (l1b ++ maxFoldD x ys :: l2) by simp, ← hys]
        · intro q hq
          have hxm := h1 z (List.mem_cons_self _ _)
          rw [← hz] at hxm
          rcases List.mem_cons.mp hq with h3 | h3
          · subst h3
            exact hxm
          rcases List.mem_cons.mp h3 with h4 | h4
          · subst h4
            rw [dtLt_false_iff] at hxyf
            rw [dtLt_true_iff] at hxm ⊢
            omega
          · exact h1 q (List.mem_cons_of_mem _ h4)

theorem primeiroMax_split (l : List (Row × DT)) (p : Row × DT)
    (h : primeiroMax l = some p) :
    ∃ l1 l2, l = l1 ++ p :: l2
      ∧ (∀ q ∈ l1, dtLt q.2 p.2 = true)
      ∧ (∀ q ∈ l2, dtLt p.2 q.2 = false) := by
  cases l with
  | nil => exact absurd h (by simp [primeiroMax])
  | cons x xs =>
    rw [primeiroMax_cons] at h
    have hp : p = maxFoldD x xs := (Option.some.inj h).symm
    subst hp
    exact maxFoldD_split xs x

/-- C4: for each shipment key, the Recency Resolver keeps exactly the
first admitted row attaining the maximal parsed timestamp — regardless of
its courier field, which only determines the `_tem_motorista` tag — and a
key whose group has no parseable-timestamp row contributes nothing.
`primeiroMax` selects the first maximum (strict comparison), and the
split conjunct certifies maximality and first-among-ties.  The two
closing equations check the spec's recency example (on a numeric parent
id) and a timestamp tie, where the first input row wins. -/
theorem c4_resolver_recencia (dados : List Row) (k : String) :
    (registrosDaChave dados k = [] →
      ∀ r ∈ deduplicarPorDataRecente dados, numeroPedido r ≠ k)
  ∧ (∀ p, primeiroMax (registrosDaChave dados k) = some p →
      marcarMotorista p.1 ∈ deduplicarPorDataRecente dados
      ∧ (∀ r ∈ deduplicarPorDataRecente dados, numeroPedido r = k →
          r = marcarMotorista p.1)
      ∧ (∃ l1 l2, registrosDaChave dados k = l1 ++ p :: l2
          ∧ (∀ q ∈ l1, dtLt q.2 p.2 = true)
          ∧ (∀ q ∈ l2, dtLt p.2 q.2 = false))
      ∧ getVal (marcarMotorista p.1) "_tem_motorista" =
          some (.vBool (campo p.1 "Correio de coleta ou entrega" != "")))
  ∧ deduplicarPorDataRecente
      [[("Número de pedido JMS", .vStr "100"),
        ("Tempo de digitalização", .vStr "2024-01-01 10:00:00"),
        ("Correio de coleta ou entrega", .vStr "CARLOS")],
       [("Número de pedido JMS", .vStr "100"),
        ("Tempo de digitalização", .vStr "2024-01-02 09:00:00"),
        ("Correio de coleta ou entrega", .vStr "")]] =
      [[("Número de pedido JMS", .vStr "100"),
        ("Tempo de digitalização", .vStr "2024-01-02 09:00:00"),
        ("Correio de coleta ou entrega", .vStr ""),
        ("_tem_motorista", .vBool false)]]
  ∧ deduplicarPorDataRecente
      [[("Número de pedido JMS", .vStr "100"),
        ("Tempo de digitalização", .vStr "2024-01-02 09:00:00"),
        ("Correio de coleta ou entrega", .vStr "")],
       [("Número de pedido JMS", .vStr "100"),
        ("Tempo de digitalização", .vStr "2024-01-02 09:00:00"),
        ("Correio de coleta ou entrega", .vStr "CARLOS")]] =
      [[("Número de pedido JMS", .vStr "100"),
        ("Tempo de digitalização", .vStr "2024-01-02 09:00:00"),
        ("Correio de coleta ou entrega", .vStr ""),
        ("_tem_motorista", .vBool false)]]
  ∧ deduplicarPorDataRecente
      [[("Número de pedido JMS", .vStr "100"),
        ("Tempo de digitalização", .vStr "abc")]] = [] := by
  refine ⟨?_, ?_, by decide, by decide, by decide⟩
  · intro hreg r hr hk
    rcases dedup_mem_inv dados r hr with ⟨kg, hkg, melhor, hhead, hmem, hr2, hnum⟩
    have hcampo : numeroPedido r = kg.1 := by
      rw [hr2, numeroPedido_marcar, hnum]
    have hk1 : kg.1 = k := by rw [← hcampo, hk]
    have hchave : k ∈ chavesGrupos (agrupar dados) :=
      List.mem_map.mpr ⟨kg, hkg, hk1⟩
    have hnone : lookupGrupo k (agrupar dados) = none := by
      rw [agrupar_lookup, hreg]
      rfl
    exact (lookupGrupo_none_iff k (agrupar dados)).mp hnone hchave
  · intro p hp
    have hne : registrosDaChave dados k ≠ [] := by
      intro he
      rw [he] at hp
      exact absurd hp (by simp [primeiroMax])
    have hlook : lookupGrupo k (agrupar dados) = some (registrosDaChave dados k) := by
      rw [agrupar_lookup, if_neg]
      rw [List.isEmpty_iff]
      exact hne
    have hkg : (k, registrosDaChave dados k) ∈ agrupar dados :=
      lookupGrupo_mem _ _ _ hlook
    have hheadp : (sortDescTempo (registrosDaChave dados k)).head? = some p := by
      rw [head_sortDescTempo]
      exact hp
    refine ⟨?_, ?_, primeiroMax_split _ _ hp, ?_⟩
    · refine List.mem_filterMap.mpr ⟨(k, registrosDaChave dados k), hkg, ?_⟩
      cases hs : sortDescTempo (registrosDaChave dados k) with
      | nil =>
        rw [hs] at hheadp
        exact absurd hheadp (by simp)
      | cons a tl =>
        rw [hs] at hheadp
        have : a = p := by simpa using hheadp
        simp [this]
    · intro r hr hk
      rcases dedup_mem_inv dados r hr with ⟨kg, hkg2, melhor, hhead, hmem, hr2, hnum⟩
      have hk1 : kg.1 = k := by
        rw [← hk, hr2, numeroPedido_marcar, hnum]
      have hkg3 : (k, kg.2) ∈ agrupar dados := by
        rw [← hk1]
        exact hkg2
      have hlook2 : lookupGrupo k (agrupar dados) = some kg.2 :=
        mem_lookupGrupo_nodup _ _ _ (agrupar_nodup dados) hkg3
      have hgg : kg.2 = registrosDaChave dados k := by
        have := hlook2.symm.trans hlook
        exact Option.some.inj this
      rw [hgg] at hhead
      have hmp : melhor = p := by
        have := hhead.symm.trans hheadp
        exact Option.some.inj this
      rw [hr2, hmp]
    · simp only [marcarMotorista]
      exact getVal_setField_self _ _ _

/-- C4 witness: the universal parts instantiated on the spec's recency
example (with a numeric parent id). -/
theorem c4_resolver_recencia_witness :
    marcarMotorista
      ([("Número de pedido JMS", .vStr "100"),
        ("Tempo de digitalização", .vStr "2024-01-02 09:00:00"),
        ("Correio de coleta ou entrega", .vStr "")] : Row) ∈
      deduplicarPorDataRecente
        [[("Número de pedido JMS", .vStr "100"),
          ("Tempo de digitalização", .vStr "2024-01-01 10:00:00"),
          ("Correio de coleta ou entrega", .vStr "CARLOS")],
         [("Número de pedido JMS", .vStr "100"),
          ("Tempo de digitalização", .vStr "2024-01-02 09:00:00"),
          ("Correio de coleta ou entrega", .vStr "")]] := by
  have h := (c4_resolver_recencia
    [[("Número de pedido JMS", .vStr "100"),
      ("Tempo de digitalização", .vStr "2024-01-01 10:00:00"),
      ("Correio de coleta ou entrega", .vStr "CARLOS")],
     [("Número de pedido JMS", .vStr "100"),
      ("Tempo de digitalização", .vStr "2024-01-02 09:00:00"),
      ("Correio de coleta ou entrega", .vStr "")]] "100").2.1
    (([("Número de pedido JMS", .vStr "100"),
       ("Tempo de digitalização", .vStr "2024-01-02 09:00:00"),
       ("Correio de coleta ou entrega", .vStr "")] : Row),
      (⟨2024, 1, 2, 9, 0, 0⟩ : DT)) (by decide)
  exact h.1

/-! ## C1 — lemmas on the upsert store -/

def semFalhaBulk : Nat → Bool := fun _ => false

def semFalhaItem : Nat → Nat → Bool := fun _ _ => false

/-- The failure-free run of `_salvar_na_colecao`. -/
def salvarPuro (s : Estado) (dados : List Row) (hoje : DT) : Estado × Nat × Nat :=
  salvarNaColecao semFalhaBulk semFalhaItem s dados hoje

theorem keysEstado_replaceDoc (k : String) (novo : StoredDoc) (s : Estado) :
    keysEstado (replaceDoc k novo s) = keysEstado s := by
  induction s with
  | nil => rfl
  | cons e es ih =>
    unfold replaceDoc
    by_cases he : e.1 = k
    · rw [if_pos (by simp [he])]
      simp [keysEstado, he]
    · rw [if_neg (by simp [he])]
      simp [keysEstado] at ih ⊢
      exact ih

theorem lookupDoc_isSome_iff (s : Estado) (k : String) :
    (lookupDoc s k).isSome = true ↔ k ∈ keysEstado s := by
  induction s with
  | nil => simp [lookupDoc, keysEstado]
  | cons e es ih =>
    by_cases he : e.1 = k
    · simp [lookupDoc, he, keysEstado]
    · simp only [lookupDoc, beq_iff_eq, he, if_false, keysEstado, List.map_cons,
        List.mem_cons]
      rw [show es.map Prod.fst = keysEstado es from rfl]
      constructor
      · intro h
        exact Or.inr (ih.mp h)
      · intro h
        rcases h with h | h
        · exact absurd h.symm he
        · exact ih.mpr h

theorem lookupDoc_replace_self (k : String) (novo : StoredDoc) (s : Estado)
    (h : (lookupDoc s k).isSome = true) :
    lookupDoc (replaceDoc k novo s) k = some novo := by
  induction s with
  | nil => simp [lookupDoc] at h
  | cons e es ih =>
    unfold replaceDoc
    by_cases he : e.1 = k
    · rw [if_pos (by simp [he])]
      simp [lookupDoc]
    · rw [if_neg (by simp [he])]
      simp only [lookupDoc, beq_iff_eq, he, if_false] at h ⊢
      exact ih h

theorem lookupDoc_replace_ne (k k2 : String) (novo : StoredDoc) (s : Estado)
    (h : k2 ≠ k) :
    lookupDoc (replaceDoc k novo s) k2 = lookupDoc s k2 := by
  induction s with
  | nil => rfl
  | cons e es ih =>
    unfold replaceDoc
    by_cases he : e.1 = k
    · rw [if_pos (by simp [he])]
      have h2 : ¬ (k = k2) := fun x => h x.symm
      have h3 : ¬ (e.1 = k2) := he ▸ h2
      simp only [lookupDoc, beq_iff_eq, h2, h3, if_false]
    · rw [if_neg (by simp [he])]
      by_cases he2 : e.1 = k2
      · simp [lookupDoc, he2]
      · simp only [lookupDoc, beq_iff_eq, he2, if_false]
        exact ih

theorem lookupDoc_append_single (s : Estado) (a : String) (d : StoredDoc)
    (k : String) :
    lookupDoc (s ++ [(a, d)]) k =
      match lookupDoc s k with
      | some x => some x
      | none => if a = k then some d else none := by
  induction s with
  | nil =>
    simp only [List.nil_append, lookupDoc]
    by_cases ha : a = k
    · simp [ha]
    · simp [ha]
  | cons e es ih =>
    by_cases he : e.1 = k
    · simp [lookupDoc, he]
    · simp only [List.cons_append, lookupDoc, beq_iff_eq, he, if_false]
      exact ih

theorem lookupDoc_mem (s : Estado) (k : String) (d : StoredDoc)
    (h : lookupDoc s k = some d) : (k, d) ∈ s := by
  induction s with
  | nil => exact absurd h (by simp [lookupDoc])
  | cons e es ih =>
    obtain ⟨a, b⟩ := e
    by_cases he : a = k
    · simp only [lookupDoc, he, beq_self_eq_true, if_true, Option.some.injEq] at h
      subst he
      subst h
      exact List.mem_cons_self _ _
    · simp only [lookupDoc, beq_iff_eq, he, if_false] at h
      exact List.mem_cons_of_mem _ (ih h)

theorem mem_lookupDoc_nodup (s : Estado) (k : String) (d : StoredDoc)
    (hnd : (keysEstado s).Nodup) (h : (k, d) ∈ s) :
    lookupDoc s k = some d := by
  induction s with
  | nil => exact absurd h (List.not_mem_nil _)
  | cons e es ih =>
    rcases List.mem_cons.mp h with h2 | h2
    · rw [← h2]
      simp [lookupDoc]
    · have hk : k ∈ keysEstado es := List.mem_map.mpr ⟨(k, d), h2, rfl⟩
      have hne : e.1 ≠ k := by
        intro he
        rw [keysEstado, List.map_cons] at hnd
        exact (List.nodup_cons.mp hnd).1 (he ▸ hk)
      simp only [lookupDoc, beq_iff_eq, hne, if_false]
      exact ih (List.nodup_cons.mp hnd).2 h2

theorem upsertOne_lookup (hoje : DT) (s : Estado) (op : String × DocCampos)
    (k : String) :
    lookupDoc (upsertOne hoje s op).1 k =
      if k = op.1 then
        some { campos := op.2,
               created_at :=
                 match lookupDoc s op.1 with
                 | some old => old.created_at
                 | none => hoje }
      else lookupDoc s k := by
  unfold upsertOne
  cases hl : lookupDoc s op.1 with
  | some old =>
    by_cases hk : k = op.1
    · subst hk
      rw [if_pos rfl]
      exact lookupDoc_replace_self _ _ _ (by rw [hl]; rfl)
    · rw [if_neg hk]
      exact lookupDoc_replace_ne _ _ _ _ hk
  | none =>
    rw [lookupDoc_append_single]
    by_cases hk : k = op.1
    · subst hk
      rw [hl, if_pos rfl]
    · rw [if_neg hk]
      cases hl2 : lookupDoc s k with
      | some x => rfl
      | none => exact if_neg (fun he => hk he.symm)

theorem upsertOne_keys (hoje : DT) (s : Estado) (op : String × DocCampos) :
    keysEstado (upsertOne hoje s op).1 =
      if (lookupDoc s op.1).isSome then keysEstado s
      else keysEstado s ++ [op.1] := by
  unfold upsertOne
  cases hl : lookupDoc s op.1 with
  | some old =>
    simp [keysEstado_replaceDoc]
  | none =>
    simp [keysEstado]

theorem upsertOne_inserted (hoje : DT) (s : Estado) (op : String × DocCampos) :
    (upsertOne hoje s op).2.1 = !(lookupDoc s op.1).isSome := by
  unfold upsertOne
  cases hl : lookupDoc s op.1 with
  | some old => rfl
  | none => rfl

theorem upsertOne_keys_mono (hoje : DT) (s : Estado) (op : String × DocCampos)
    (k : String) (h : k ∈ keysEstado s) : k ∈ keysEstado (upsertOne hoje s op).1 := by
  rw [upsertOne_keys]
  by_cases hl : (lookupDoc s op.1).isSome
  · rw [if_pos hl]; exact h
  · rw [if_neg hl]; exact List.mem_append_left _ h

theorem aplicarOps_keys_mono (hoje : DT) (ops : List (String × DocCampos)) :
    ∀ (s : Estado) (k : String), k ∈ keysEstado s →
      k ∈ keysEstado (aplicarOps hoje s ops).1 := by
  induction ops with
  | nil => intro s k h; exact h
  | cons o os ih =>
    intro s k h
    exact ih _ k (upsertOne_keys_mono hoje s o k h)

theorem aplicarOps_opkeys (hoje : DT) (ops : List (String × DocCampos)) :
    ∀ (s : Estado) (op : String × DocCampos), op ∈ ops →
      op.1 ∈ keysEstado (aplicarOps hoje s ops).1 := by
  induction ops with
  | nil => intro s op h; exact absurd h (List.not_mem_nil _)
  | cons o os ih =>
    intro s op h
    rcases List.mem_cons.mp h with h2 | h2
    · subst h2
      refine aplicarOps_keys_mono hoje os _ op.1 ?_
      rw [upsertOne_keys]
      by_cases hl : (lookupDoc s op.1).isSome
      · rw [if_pos hl]
        exact (lookupDoc_isSome_iff s op.1).mp hl
      · rw [if_neg hl]
        exact List.mem_append_right _ (List.mem_singleton.mpr rfl)
    · exact ih _ op h2

theorem aplicarOps_nodup (hoje : DT) (ops : List (String × DocCampos)) :
    ∀ s : Estado, (keysEstado s).Nodup →
      (keysEstado (aplicarOps hoje s ops).1).Nodup := by
  induction ops with
  | nil => intro s h; exact h
  | cons o os ih =>
    intro s h
    refine ih _ ?_
    rw [upsertOne_keys]
    by_cases hl : (lookupDoc s o.1).isSome
    · rw [if_pos hl]; exact h
    · rw [if_neg hl]
      refine List.Nodup.append h (List.nodup_singleton _) ?_
      intro a ha hb
      rw [List.mem_singleton.mp hb] at ha
      exact hl ((lookupDoc_isSome_iff s o.1).mpr ha)

theorem aplicarOps_all_present (hoje : DT) (ops : List (String × DocCampos)) :
    ∀ s : Estado, (∀ op ∈ ops, op.1 ∈ keysEstado s) →
      keysEstado (aplicarOps hoje s ops).1 = keysEstado s ∧
        (aplicarOps hoje s ops).2.1 = 0 := by
  induction ops with
  | nil => intro s _; exact ⟨rfl, rfl⟩
  | cons o os ih =>
    intro s h
    have ho : (lookupDoc s o.1).isSome = true :=
      (lookupDoc_isSome_iff s o.1).mpr (h o (List.mem_cons_self _ _))
    have hkeys : keysEstado (upsertOne hoje s o).1 = keysEstado s := by
      rw [upsertOne_keys, if_pos ho]
    have hins : (upsertOne hoje s o).2.1 = false := by
      rw [upsertOne_inserted, ho]
      rfl
    have hrest := ih (upsertOne hoje s o).1
      (fun op hop => hkeys ▸ h op (List.mem_cons_of_mem _ hop))
    unfold aplicarOps
    refine ⟨hrest.1.trans hkeys, ?_⟩
    simp [hins, hrest.2]

theorem ultimaOp_go (k : String) (ops : List (String × DocCampos)) :
    ∀ acc : Option DocCampos,
      ops.foldl (fun acc op => if op.1 == k then some op.2 else acc) acc =
        match ultimaOp k ops with
        | some f => some f
        | none => acc := by
  induction ops with
  | nil => intro acc; rfl
  | cons o os ih =>
    intro acc
    simp only [List.foldl_cons]
    rw [ih]
    have h2 : ultimaOp k (o :: os) =
        os.foldl (fun acc op => if op.1 == k then some op.2 else acc)
          (if o.1 == k then some o.2 else none) := rfl
    rw [h2, ih]
    cases hos : ultimaOp k os with
    | some f => rfl
    | none =>
      by_cases hk : (o.1 == k) = true
      · rw [if_pos hk, if_pos hk]
      · rw [if_neg hk, if_neg hk]

theorem ultimaOp_cons (k : String) (o : String × DocCampos)
    (os : List (String × DocCampos)) :
    ultimaOp k (o :: os) =
      match ultimaOp k os with
      | some f => some f
      | none => if o.1 == k then some o.2 else none := by
  show (o :: os).foldl (fun acc op => if op.1 == k then some op.2 else acc) none = _
  simp only [List.foldl_cons]
  exact ultimaOp_go k os _

theorem aplicarOps_lookup (hoje : DT) (ops : List (String × DocCampos)) :
    ∀ (s : Estado) (k : String),
      lookupDoc (aplicarOps hoje s ops).1 k =
        match ultimaOp k ops with
        | none => lookupDoc s k
        | some f =>
          some { campos := f,
                 created_at :=
                   match lookupDoc s k with
                   | some old => old.created_at
                   | none => hoje } := by
  induction ops with
  | nil => intro s k; rfl
  | cons o os ih =>
    intro s k
    show lookupDoc (aplicarOps hoje (upsertOne hoje s o).1 os).1 k = _
    rw [ih, ultimaOp_cons]
    cases hos : ultimaOp k os with
    | some f =>
      simp only []
      rw [upsertOne_lookup]
      by_cases hk : k = o.1
      · subst hk
        rw [if_pos rfl]
      · rw [if_neg hk]
    | none =>
      simp only []
      rw [upsertOne_lookup]
      by_cases hk : k = o.1
      · subst hk
        rw [if_pos rfl]
        simp
      · have h1 : (o.1 == k) = false := beq_eq_false_iff_ne.mpr (fun he => hk he.symm)
        rw [if_neg hk, h1]
        simp

theorem aplicarOps_append_fst (hoje : DT) (l1 : List (String × DocCampos)) :
    ∀ (l2 : List (String × DocCampos)) (s : Estado),
      (aplicarOps hoje s (l1 ++ l2)).1 =
        (aplicarOps hoje (aplicarOps hoje s l1).1 l2).1 := by
  induction l1 with
  | nil => intro l2 s; rfl
  | cons o os ih =>
    intro l2 s
    show (aplicarOps hoje (upsertOne hoje s o).1 (os ++ l2)).1 = _
    rw [ih]
    rfl

theorem aplicarOps_append_ups (hoje : DT) (l1 : List (String × DocCampos)) :
    ∀ (l2 : List (String × DocCampos)) (s : Estado),
      (aplicarOps hoje s (l1 ++ l2)).2.1 =
        (aplicarOps hoje s l1).2.1 +
          (aplicarOps hoje (aplicarOps hoje s l1).1 l2).2.1 := by
  induction l1 with
  | nil =>
    intro l2 s
    show (aplicarOps hoje s l2).2.1 = 0 + (aplicarOps hoje s l2).2.1
    omega
  | cons o os ih =>
    intro l2 s
    show (if (upsertOne hoje s o).2.1 = true then 1 else 0) +
        (aplicarOps hoje (upsertOne hoje s o).1 (os ++ l2)).2.1 = _
    rw [ih]
    show _ = (if (upsertOne hoje s o).2.1 = true then 1 else 0) +
        (aplicarOps hoje (upsertOne hoje s o).1 os).2.1 +
        (aplicarOps hoje (aplicarOps hoje (upsertOne hoje s o).1 os).1 l2).2.1
    omega

theorem aplicarOps_append_mod (hoje : DT) (l1 : List (String × DocCampos)) :
    ∀ (l2 : List (String × DocCampos)) (s : Estado),
      (aplicarOps hoje s (l1 ++ l2)).2.2 =
        (aplicarOps hoje s l1).2.2 +
          (aplicarOps hoje (aplicarOps hoje s l1).1 l2).2.2 := by
  induction l1 with
  | nil =>
    intro l2 s
    show (aplicarOps hoje s l2).2.2 = 0 + (aplicarOps hoje s l2).2.2
    omega
  | cons o os ih =>
    intro l2 s
    show (if (upsertOne hoje s o).2.2 = true then 1 else 0) +
        (aplicarOps hoje (upsertOne hoje s o).1 (os ++ l2)).2.2 = _
    rw [ih]
    show _ = (if (upsertOne hoje s o).2.2 = true then 1 else 0) +
        (aplicarOps hoje (upsertOne hoje s o).1 os).2.2 +
        (aplicarOps hoje (aplicarOps hoje (upsertOne hoje s o).1 os).1 l2).2.2
    omega

theorem processarChunk_semFalha (hoje : DT) (fi : Nat → Bool) (s : Estado)
    (rows : List Row) :
    processarChunkSalvar hoje false fi s rows =
      aplicarOps hoje s (rows.filterMap (buildOpBulk hoje)) := by
  unfold processarChunkSalvar
  by_cases h : (rows.filterMap (buildOpBulk hoje)).isEmpty
  · rw [if_pos h]
    rw [List.isEmpty_iff.mp h]
    rfl
  · rw [if_neg h]
    rfl

theorem salvarLoop_semFalha (hoje : DT) (fi : Nat → Nat → Bool) :
    ∀ (chunks : List (List Row)) (i : Nat) (s : Estado),
      salvarLoop hoje semFalhaBulk fi i s chunks =
        aplicarOps hoje s
          ((chunks.map (fun ch => ch.filterMap (buildOpBulk hoje))).flatten) := by
  intro chunks
  induction chunks with
  | nil => intro i s; rfl
  | cons ch rest ih =>
    intro i s
    show (let one := processarChunkSalvar hoje (semFalhaBulk i) (fi i) s ch
          let r := salvarLoop hoje semFalhaBulk fi (i + 1) one.1 rest
          (r.1, one.2.1 + r.2.1, one.2.2 + r.2.2)) = _
    simp only []
    rw [show semFalhaBulk i = false from rfl, processarChunk_semFalha, ih]
    rw [List.map_cons, List.flatten_cons]
    refine Prod.ext ?_ (Prod.ext ?_ ?_)
    · simp only []
      rw [aplicarOps_append_fst]
    · simp only []
      rw [aplicarOps_append_ups]
    · simp only []
      rw [aplicarOps_append_mod]

theorem filterMapBuild_flatten (f : Row → Option (String × DocCampos)) :
    ∀ ls : List (List Row),
      (ls.map (fun l => l.filterMap f)).flatten = ls.flatten.filterMap f := by
  intro ls
  induction ls with
  | nil => rfl
  | cons l rest ih =>
    simp only [List.map_cons, List.flatten_cons, List.filterMap_append, ih]

theorem chunksOfAux_fuel (n : Nat) : ∀ (f1 f2 : Nat) (l : List Row),
    l.length ≤ f1 → l.length ≤ f2 → chunksOfAux n f1 l = chunksOfAux n f2 l := by
  intro f1
  induction f1 with
  | zero =>
    intro f2 l h1 _
    have hnil : l = [] := List.eq_nil_of_length_eq_zero (Nat.le_zero.mp h1)
    subst hnil
    cases f2 <;> rfl
  | succ m1 ih =>
    intro f2 l h1 h2
    cases l with
    | nil => cases f2 <;> rfl
    | cons x xs =>
      cases f2 with
      | zero =>
        exact absurd h2 (by simp)
      | succ m2 =>
        show (x :: xs.take (n - 1)) :: chunksOfAux n m1 (xs.drop (n - 1)) =
          (x :: xs.take (n - 1)) :: chunksOfAux n m2 (xs.drop (n - 1))
        have hd : (xs.drop (n - 1)).length ≤ m1 := by
          simp only [List.length_drop]
          simp only [List.length_cons] at h1
          omega
        have hd2 : (xs.drop (n - 1)).length ≤ m2 := by
          simp only [List.length_drop]
          simp only [List.length_cons] at h2
          omega
        rw [ih m2 _ hd hd2]

theorem chunksOf_cons (n : Nat) (x : Row) (xs : List Row) :
    chunksOf n (x :: xs) =
      (x :: xs.take (n - 1)) :: chunksOf n (xs.drop (n - 1)) := by
  show chunksOfAux n (xs.length + 1) (x :: xs) = _
  show (x :: xs.take (n - 1)) :: chunksOfAux n xs.length (xs.drop (n - 1)) = _
  unfold chunksOf
  rw [chunksOfAux_fuel n xs.length (xs.drop (n - 1)).length (xs.drop (n - 1))
    (by simp) (Nat.le_refl _)]

theorem chunksOf_flatten (n : Nat) : ∀ l : List Row, (chunksOf n l).flatten = l := by
  have main : ∀ (len : Nat) (l : List Row), l.length ≤ len →
      (chunksOf n l).flatten = l := by
    intro len
    induction len with
    | zero =>
      intro l hl
      have hnil : l = [] := List.eq_nil_of_length_eq_zero (Nat.le_zero.mp hl)
      subst hnil
      rfl
    | succ m ih =>
      intro l hl
      cases l with
      | nil => rfl
      | cons x xs =>
        have hlen2 : (xs.drop (n - 1)).length ≤ m := by
          simp only [List.length_drop]
          simp only [List.length_cons] at hl
          omega
        rw [chunksOf_cons, List.flatten_cons, ih _ hlen2, List.cons_append,
          List.take_append_drop]
  intro l
  exact main l.length l (Nat.le_refl _)

theorem salvarPuro_eq (s : Estado) (dados : List Row) (hoje : DT) :
    salvarPuro s dados hoje =
      aplicarOps hoje s (dados.filterMap (buildOpBulk hoje)) := by
  unfold salvarPuro salvarNaColecao
  rw [salvarLoop_semFalha, filterMapBuild_flatten, chunksOf_flatten]

theorem buildOpBulk_updated (h1 h2 : DT) (item : Row) :
    buildOpBulk h2 item =
      (buildOpBulk h1 item).map (fun q => (q.1, { q.2 with updated_at := h2 })) := by
  unfold buildOpBulk
  by_cases ha : (numeroPedido item == "") = true
  · rw [if_pos ha, if_pos ha]
    rfl
  · rw [if_neg ha, if_neg ha]
    by_cases hb : isChild (numeroPedido item) = true
    · rw [if_pos hb, if_pos hb]
      rfl
    · rw [if_neg hb, if_neg hb]
      rfl

theorem ultimaOp_map (k : String) (ops : List (String × DocCampos))
    (g : DocCampos → DocCampos) :
    ultimaOp k (ops.map (fun q => (q.1, g q.2))) = (ultimaOp k ops).map g := by
  induction ops with
  | nil => rfl
  | cons o os ih =>
    rw [List.map_cons, ultimaOp_cons, ultimaOp_cons, ih]
    cases hos : ultimaOp k os with
    | some f => rfl
    | none =>
      simp only [Option.map_none]
      by_cases hk : (o.1 == k) = true
      · rw [if_pos hk, if_pos hk]
        rfl
      · rw [if_neg hk, if_neg hk]
        rfl

theorem ultimaOp_some_keymem (k : String) (ops : List (String × DocCampos)) :
    ∀ f : DocCampos, ultimaOp k ops = some f → ∃ op ∈ ops, op.1 = k := by
  induction ops with
  | nil => intro f h; exact absurd h (by simp [ultimaOp])
  | cons o os ih =>
    intro f h
    rw [ultimaOp_cons] at h
    cases hos : ultimaOp k os with
    | some f2 =>
      rcases ih f2 hos with ⟨op, hop, hk⟩
      exact ⟨op, List.mem_cons_of_mem _ hop, hk⟩
    | none =>
      simp only [hos] at h
      by_cases hk : (o.1 == k) = true
      · exact ⟨o, List.mem_cons_self _ _, beq_iff_eq.mp hk⟩
      · rw [if_neg hk] at h
        exact absurd h (by simp)

/-- The per-operation effect of changing only the run timestamp. -/
def atualizarOp (h2 : DT) (q : String × DocCampos) : String × DocCampos :=
  (q.1, { q.2 with updated_at := h2 })

theorem ultimaOp_atualizar (k : String) (h2 : DT)
    (ops : List (String × DocCampos)) :
    ultimaOp k (ops.map (atualizarOp h2)) =
      (ultimaOp k ops).map (fun c => { c with updated_at := h2 }) :=
  ultimaOp_map k ops (fun c => { c with updated_at := h2 })

/-- C1: persisting reconciled records is idempotent.  The upsert key is
exactly `numero_pedido_jms`: starting from a store whose keys are unique
(the collection's unique index), a failure-free save keeps at most one
document per shipment key; re-submitting the same record list yields an
upserted (newly-inserted) count of 0, leaves the key set unchanged, and
every stored document matches its post-first-run counterpart with
identical content except `updated_at` (`created_at` preserved). -/
theorem c1_upsert_idempotente (s0 : Estado) (dados : List Row) (h1 h2 : DT)
    (hnd : (keysEstado s0).Nodup) :
    (keysEstado (salvarPuro s0 dados h1).1).Nodup
  ∧ (salvarPuro (salvarPuro s0 dados h1).1 dados h2).2.1 = 0
  ∧ keysEstado (salvarPuro (salvarPuro s0 dados h1).1 dados h2).1 =
      keysEstado (salvarPuro s0 dados h1).1
  ∧ ∀ e ∈ (salvarPuro (salvarPuro s0 dados h1).1 dados h2).1,
      ∃ d ∈ (salvarPuro s0 dados h1).1,
        d.1 = e.1 ∧ e.2.created_at = d.2.created_at ∧
          e.2.campos = { d.2.campos with updated_at := e.2.campos.updated_at } := by
  have hrw1 : salvarPuro s0 dados h1 =
      aplicarOps h1 s0 (dados.filterMap (buildOpBulk h1)) :=
    salvarPuro_eq s0 dados h1
  have hrw2 : salvarPuro (salvarPuro s0 dados h1).1 dados h2 =
      aplicarOps h2 (salvarPuro s0 dados h1).1 (dados.filterMap (buildOpBulk h2)) :=
    salvarPuro_eq _ dados h2
  have hmap : dados.filterMap (buildOpBulk h2) =
      (dados.filterMap (buildOpBulk h1)).map (atualizarOp h2) := by
    rw [List.map_filterMap]
    congr 1
    funext a
    exact buildOpBulk_updated h1 h2 a
  have hnd1 : (keysEstado (salvarPuro s0 dados h1).1).Nodup := by
    rw [hrw1]
    exact aplicarOps_nodup h1 _ s0 hnd
  have hpres : ∀ op ∈ dados.filterMap (buildOpBulk h2),
      op.1 ∈ keysEstado (salvarPuro s0 dados h1).1 := by
    intro op hop
    rw [hmap] at hop
    rcases List.mem_map.mp hop with ⟨op1, hop1, heq⟩
    have hkk : op.1 = op1.1 := by rw [← heq]; rfl
    rw [hkk, hrw1]
    exact aplicarOps_opkeys h1 _ s0 op1 hop1
  have hall := aplicarOps_all_present h2 (dados.filterMap (buildOpBulk h2))
    (salvarPuro s0 dados h1).1 hpres
  refine ⟨hnd1, ?_, ?_, ?_⟩
  · rw [hrw2]
    exact hall.2
  · rw [hrw2]
    exact hall.1
  · intro e he
    rw [hrw2] at he
    have hnd2 : (keysEstado (aplicarOps h2 (salvarPuro s0 dados h1).1
        (dados.filterMap (buildOpBulk h2))).1).Nodup := by
      rw [hall.1]
      exact hnd1
    obtain ⟨k, d2⟩ := e
    have hlook2 : lookupDoc (aplicarOps h2 (salvarPuro s0 dados h1).1
        (dados.filterMap (buildOpBulk h2))).1 k = some d2 :=
      mem_lookupDoc_nodup _ _ _ hnd2 he
    rw [aplicarOps_lookup] at hlook2
    cases hult2 : ultimaOp k (dados.filterMap (buildOpBulk h2)) with
    | none =>
      simp only [hult2] at hlook2
      exact ⟨(k, d2), lookupDoc_mem _ _ _ hlook2, rfl, rfl, rfl⟩
    | some f2 =>
      simp only [hult2] at hlook2
      have hult1 : ∃ f1, ultimaOp k (dados.filterMap (buildOpBulk h1)) = some f1 ∧
          f2 = { f1 with updated_at := h2 } := by
        rw [hmap, ultimaOp_atualizar] at hult2
        cases h1u : ultimaOp k (dados.filterMap (buildOpBulk h1)) with
        | none =>
          rw [h1u] at hult2
          exact absurd hult2 (by simp)
        | some f1 =>
          rw [h1u] at hult2
          simp only [Option.map_some'] at hult2
          exact ⟨f1, rfl, (Option.some.inj hult2).symm⟩
      rcases hult1 with ⟨f1, h1u, hf2⟩
      have hkmem : k ∈ keysEstado (salvarPuro s0 dados h1).1 := by
        rcases ultimaOp_some_keymem k _ f2 hult2 with ⟨op, hop, hopk⟩
        have hm := hpres op hop
        rw [hopk] at hm
        exact hm
      have hsome1 : (lookupDoc (salvarPuro s0 dados h1).1 k).isSome =
          true := (lookupDoc_isSome_iff _ k).mpr hkmem
      cases hd1 : lookupDoc (salvarPuro s0 dados h1).1 k with
      | none =>
        rw [hd1] at hsome1
        exact absurd hsome1 (by simp)
      | some d1 =>
        rw [hd1] at hlook2
        simp only [] at hlook2
        have hd2 : d2 = { campos := f2, created_at := d1.created_at } :=
          (Option.some.inj hlook2).symm
        have hd1c : d1.campos = f1 := by
          have hcopy := hd1
          rw [hrw1, aplicarOps_lookup, h1u] at hcopy
          simp only [] at hcopy
          rw [← Option.some.inj hcopy]
        refine ⟨(k, d1), lookupDoc_mem _ _ _ hd1, rfl, ?_, ?_⟩
        · rw [hd2]
        · rw [hd2, hd1c, hf2]

/-- C1 witness: a concrete double run on one record from an empty store. -/
theorem c1_upsert_idempotente_witness :
    (keysEstado (salvarPuro []
      [[("Número de pedido JMS", PyVal.vStr "123"),
        ("_esta_com_motorista", PyVal.vBool true),
        ("Responsável pela entrega", PyVal.vStr "CARLOS")]]
      ⟨2024, 1, 1, 0, 0, 0⟩).1).Nodup
  ∧ (salvarPuro (salvarPuro []
      [[("Número de pedido JMS", PyVal.vStr "123"),
        ("_esta_com_motorista", PyVal.vBool true),
        ("Responsável pela entrega", PyVal.vStr "CARLOS")]]
      ⟨2024, 1, 1, 0, 0, 0⟩).1
      [[("Número de pedido JMS", PyVal.vStr "123"),
        ("_esta_com_motorista", PyVal.vBool true),
        ("Responsável pela entrega", PyVal.vStr "CARLOS")]]
      ⟨2024, 1, 2, 0, 0, 0⟩).2.1 = 0
  ∧ keysEstado (salvarPuro (salvarPuro []
      [[("Número de pedido JMS", PyVal.vStr "123"),
        ("_esta_com_motorista", PyVal.vBool true),
        ("Responsável pela entrega", PyVal.vStr "CARLOS")]]
      ⟨2024, 1, 1, 0, 0, 0⟩).1
      [[("Número de pedido JMS", PyVal.vStr "123"),
        ("_esta_com_motorista", PyVal.vBool true),
        ("Responsável pela entrega", PyVal.vStr "CARLOS")]]
      ⟨2024, 1, 2, 0, 0, 0⟩).1 =
      keysEstado (salvarPuro []
      [[("Número de pedido JMS", PyVal.vStr "123"),
        ("_esta_com_motorista", PyVal.vBool true),
        ("Responsável pela entrega", PyVal.vStr "CARLOS")]]
      ⟨2024, 1, 1, 0, 0, 0⟩).1
  ∧ ∀ e ∈ (salvarPuro (salvarPuro []
      [[("Número de pedido JMS", PyVal.vStr "123"),
        ("_esta_com_motorista", PyVal.vBool true),
        ("Responsável pela entrega", PyVal.vStr "CARLOS")]]
      ⟨2024, 1, 1, 0, 0, 0⟩).1
      [[("Número de pedido JMS", PyVal.vStr "123"),
        ("_esta_com_motorista", PyVal.vBool true),
        ("Responsável pela entrega", PyVal.vStr "CARLOS")]]
      ⟨2024, 1, 2, 0, 0, 0⟩).1,
      ∃ d ∈ (salvarPuro []
        [[("Número de pedido JMS", PyVal.vStr "123"),
          ("_esta_com_motorista", PyVal.vBool true),
          ("Responsável pela entrega", PyVal.vStr "CARLOS")]]
        ⟨2024, 1, 1, 0, 0, 0⟩).1,
        d.1 = e.1 ∧ e.2.created_at = d.2.created_at ∧
          e.2.campos = { d.2.campos with updated_at := e.2.campos.updated_at } :=
  c1_upsert_idempotente []
    [[("Número de pedido JMS", PyVal.vStr "123"),
      ("_esta_com_motorista", PyVal.vBool true),
      ("Responsável pela entrega", PyVal.vStr "CARLOS")]]
    ⟨2024, 1, 1, 0, 0, 0⟩ ⟨2024, 1, 2, 0, 0, 0⟩ (by decide)

/-! ## C7 — per-record fallback accounting; the summary carries no
failure count -/

theorem fallbackItem_conta (hoje : DT) (s : Estado) (item : Row)
    (hnum : numeroPedido item ≠ "") :
    (fallbackItem hoje false s item).2.1 + (fallbackItem hoje false s item).2.2 = 1 := by
  unfold fallbackItem
  simp only [Bool.false_eq_true, if_false]
  rw [if_neg (by simp [hnum])]
  cases hl : lookupDoc s (numeroPedido item) with
  | some old => rfl
  | none => rfl

theorem fallbackItem_falha (hoje : DT) (s : Estado) (item : Row) :
    fallbackItem hoje true s item = (s, 0, 0) := rfl

theorem fallbackLoop_cons_ups (hoje : DT) (fi : Nat → Bool) (j : Nat) (s : Estado)
    (item : Row) (rest : List Row) :
    (fallbackLoop hoje fi j s (item :: rest)).2.1 =
      (fallbackItem hoje (fi j) s item).2.1 +
        (fallbackLoop hoje fi (j + 1) (fallbackItem hoje (fi j) s item).1 rest).2.1 :=
  rfl

theorem fallbackLoop_cons_mod (hoje : DT) (fi : Nat → Bool) (j : Nat) (s : Estado)
    (item : Row) (rest : List Row) :
    (fallbackLoop hoje fi j s (item :: rest)).2.2 =
      (fallbackItem hoje (fi j) s item).2.2 +
        (fallbackLoop hoje fi (j + 1) (fallbackItem hoje (fi j) s item).1 rest).2.2 :=
  rfl

theorem contarFalhas_succ (fi : Nat → Bool) (j n : Nat) :
    contarFalhas fi j (n + 1) = (if fi j then 1 else 0) + contarFalhas fi (j + 1) n :=
  rfl

theorem fallbackLoop_conta (hoje : DT) (fi : Nat → Bool) :
    ∀ (rows : List Row) (j : Nat) (s : Estado),
      (∀ item ∈ rows, numeroPedido item ≠ "") →
      (fallbackLoop hoje fi j s rows).2.1 + (fallbackLoop hoje fi j s rows).2.2 +
        contarFalhas fi j rows.length = rows.length := by
  intro rows
  induction rows with
  | nil => intro j s _; rfl
  | cons item rest ih =>
    intro j s h
    have hnum : numeroPedido item ≠ "" := h item (List.mem_cons_self _ _)
    rw [fallbackLoop_cons_ups, fallbackLoop_cons_mod, List.length_cons,
      contarFalhas_succ]
    rcases hcase : fi j with _ | _
    · have hone := fallbackItem_conta hoje s item hnum
      have hthis := ih (j + 1) (fallbackItem hoje false s item).1
        (fun it hit => h it (List.mem_cons_of_mem _ hit))
      rw [show (if (false : Bool) = true then (1 : Nat) else 0) = 0 from rfl]
      omega
    · have hthis := ih (j + 1) (fallbackItem hoje true s item).1
        (fun it hit => h it (List.mem_cons_of_mem _ hit))
      have ha1 : (fallbackItem hoje true s item).2.1 = 0 := rfl
      have ha2 : (fallbackItem hoje true s item).2.2 = 0 := rfl
      rw [ha1, ha2,
        show (if (true : Bool) = true then (1 : Nat) else 0) = 1 from rfl]
      omega

theorem buildOpBulk_isSome (hoje : DT) (item : Row)
    (hnum : numeroPedido item ≠ "") (hch : isChild (numeroPedido item) = false) :
    (buildOpBulk hoje item).isSome = true := by
  unfold buildOpBulk
  rw [if_neg (by simp [hnum]), if_neg (by simp [hch])]
  rfl

theorem chunksOf_single (n : Nat) (l : List Row) (h1 : l ≠ []) (h2 : l.length ≤ n) :
    chunksOf n l = [l] := by
  cases l with
  | nil => exact absurd rfl h1
  | cons x xs =>
    rw [chunksOf_cons]
    have hx : xs.length ≤ n - 1 := by
      simp only [List.length_cons] at h2
      omega
    rw [List.take_of_length_le hx, List.drop_eq_nil_of_le hx]
    rfl

theorem salvarLoop_one (hoje : DT) (fb : Nat → Bool) (fi : Nat → Nat → Bool)
    (i : Nat) (s : Estado) (ch : List Row) :
    salvarLoop hoje fb fi i s [ch] =
      ((processarChunkSalvar hoje (fb i) (fi i) s ch).1,
       (processarChunkSalvar hoje (fb i) (fi i) s ch).2.1 + 0,
       (processarChunkSalvar hoje (fb i) (fi i) s ch).2.2 + 0) := rfl

/-- C7 (amended): when the batched bulk upsert for a (single-chunk) batch
of N records fails, the Bulk Writer performs one per-record upsert
attempt per record, swallowing individual failures, and the returned
summary — which carries only the saved and updated counters — satisfies
saved + updated + (number of per-record failures) = N.  The hypotheses
restrict to pipeline records: non-empty non-child keys with the
`_esta_com_motorista` flag set (without the flag the Python fallback can
itself raise on an unassigned variable, lines 619-632). -/
theorem c7_fallback_contabilidade (s : Estado) (dados : List Row) (hoje : DT)
    (fi : Nat → Nat → Bool) (hne : dados ≠ []) (hlen : dados.length ≤ 1000)
    (hkeys : ∀ item ∈ dados, numeroPedido item ≠ "" ∧
      isChild (numeroPedido item) = false ∧
      temCampo item "_esta_com_motorista" = true) :
    (salvarNaColecao (fun _ => true) fi s dados hoje).2.1 +
      (salvarNaColecao (fun _ => true) fi s dados hoje).2.2 +
      contarFalhas (fi 0) 0 dados.length = dados.length := by
  unfold salvarNaColecao
  rw [chunksOf_single 1000 dados hne hlen, salvarLoop_one]
  have hops : (dados.filterMap (buildOpBulk hoje)).isEmpty = false := by
    cases dados with
    | nil => exact absurd rfl hne
    | cons item rest =>
      rcases hkeys item (List.mem_cons_self _ _) with ⟨hnum, hch, _⟩
      have hsome := buildOpBulk_isSome hoje item hnum hch
      cases hb : buildOpBulk hoje item with
      | none => rw [hb] at hsome; exact absurd hsome (by simp)
      | some op => simp [List.filterMap_cons, hb]
  have hchunk : processarChunkSalvar hoje true (fi 0) s dados =
      fallbackLoop hoje (fi 0) 0 s dados := by
    unfold processarChunkSalvar
    rw [if_neg (by simp [hops])]
    rfl
  rw [hchunk]
  simp only [Nat.add_zero]
  exact fallbackLoop_conta hoje (fi 0) dados 0 s (fun it hit => (hkeys it hit).1)

def c7RowA : Row :=
  [("Número de pedido JMS", .vStr "500"),
   ("_esta_com_motorista", .vBool true),
   ("Responsável pela entrega", .vStr "CARLOS")]

def c7RowB : Row :=
  [("Número de pedido JMS", .vStr "501"),
   ("_esta_com_motorista", .vBool true),
   ("Responsável pela entrega", .vStr "DAVI")]

/-- C7 witness: a failed batch of two records with one per-record
failure: saved = 1, updated = 0, one counted failure, summing to 2. -/
theorem c7_fallback_contabilidade_witness :
    (salvarNaColecao (fun _ => true) (fun _ j => j == 1) [] [c7RowA, c7RowB]
      ⟨2024, 1, 1, 0, 0, 0⟩).2.1 +
    (salvarNaColecao (fun _ => true) (fun _ j => j == 1) [] [c7RowA, c7RowB]
      ⟨2024, 1, 1, 0, 0, 0⟩).2.2 +
    contarFalhas ((fun _ j => j == 1) 0) 0 ([c7RowA, c7RowB] : List Row).length =
      ([c7RowA, c7RowB] : List Row).length :=
  c7_fallback_contabilidade [] [c7RowA, c7RowB] ⟨2024, 1, 1, 0, 0, 0⟩
    (fun _ j => j == 1) (by decide) (by decide) (by decide)

/-- C7 (counterexample to the claim as stated): the summary returned by
`_salvar_na_colecao` is only the pair (saved, updated) — it carries no
`failedCount` or `sampleErrors`.  Two failed batches, one of 1 record
with no per-record failure and one of 2 records with one failure, return
the *same* summary, so no reading of the summary can satisfy
upserted + updated + failedCount = N for both runs (1 and 2). -/
theorem c7_resumo_sem_contagem_de_falhas :
    (salvarNaColecao (fun _ => true) (fun _ _ => false) [] [c7RowA]
      ⟨2024, 1, 1, 0, 0, 0⟩).2 =
    (salvarNaColecao (fun _ => true) (fun _ j => j == 1) [] [c7RowA, c7RowB]
      ⟨2024, 1, 1, 0, 0, 0⟩).2
  ∧ (salvarNaColecao (fun _ => true) (fun _ j => j == 1) [] [c7RowA, c7RowB]
      ⟨2024, 1, 1, 0, 0, 0⟩).2 = (1, 0)
  ∧ contarFalhas ((fun (_ j : Nat) => j == 1) 0) 0 2 = 1
  ∧ ¬ ∃ f : Nat × Nat → Nat,
      (f (salvarNaColecao (fun _ => true) (fun _ _ => false) [] [c7RowA]
          ⟨2024, 1, 1, 0, 0, 0⟩).2 +
        (salvarNaColecao (fun _ => true) (fun _ _ => false) [] [c7RowA]
          ⟨2024, 1, 1, 0, 0, 0⟩).2.1 +
        (salvarNaColecao (fun _ => true) (fun _ _ => false) [] [c7RowA]
          ⟨2024, 1, 1, 0, 0, 0⟩).2.2 = 1) ∧
      (f (salvarNaColecao (fun _ => true) (fun _ j => j == 1) [] [c7RowA, c7RowB]
          ⟨2024, 1, 1, 0, 0, 0⟩).2 +
        (salvarNaColecao (fun _ => true) (fun _ j => j == 1) [] [c7RowA, c7RowB]
          ⟨2024, 1, 1, 0, 0, 0⟩).2.1 +
        (salvarNaColecao (fun _ => true) (fun _ j => j == 1) [] [c7RowA, c7RowB]
          ⟨2024, 1, 1, 0, 0, 0⟩).2.2 = 2) := by
  refine ⟨by decide, by decide, by decide, ?_⟩
  rintro ⟨f, hA, hB⟩
  have hEq : (salvarNaColecao (fun _ => true) (fun _ _ => false) [] [c7RowA]
      ⟨2024, 1, 1, 0, 0, 0⟩).2 =
    (salvarNaColecao (fun _ => true) (fun _ j => j == 1) [] [c7RowA, c7RowB]
      ⟨2024, 1, 1, 0, 0, 0⟩).2 := by decide
  rw [hEq] at hA
  have e1 : (salvarNaColecao (fun _ => true) (fun _ j => j == 1) [] [c7RowA, c7RowB]
      ⟨2024, 1, 1, 0, 0, 0⟩).2.1 = 1 := by decide
  have e2 : (salvarNaColecao (fun _ => true) (fun _ j => j == 1) [] [c7RowA, c7RowB]
      ⟨2024, 1, 1, 0, 0, 0⟩).2.2 = 0 := by decide
  rw [e1, e2] at hA hB
  omega

/-! ## C8 — the ledger status after an upload -/

/-- C8 (amended): chunk-level persistence failures never change the
terminal ledger status.  Every non-empty upload ends with status
`completed` — including runs in which zero chunk documents were
persisted; the `error` status is assigned only when an exception escapes
the orchestration, and an empty parse is rejected with HTTP 400 before
any batch document exists. -/
theorem c8_status_sempre_completed (fb fd : Nat → Bool) (dados : List Row)
    (hne : dados ≠ []) :
    (uploadD1 fb fd dados).map Prod.fst = some StatusBatch.completed
  ∧ uploadD1 fb fd dados =
      some (StatusBatch.completed,
        saveChunksOptimized fb fd (chunksOf 5000 dados))
  ∧ uploadD1 fb fd [] = none := by
  have hcond : (dados.length == 0) = false := by
    rw [beq_eq_false_iff_ne]
    intro h0
    exact hne (List.eq_nil_of_length_eq_zero h0)
  unfold uploadD1
  rw [if_neg (by simp [hcond])]
  exact ⟨rfl, rfl, rfl⟩

/-- C8 witness: a run whose every store insert fails still completes. -/
theorem c8_status_sempre_completed_witness :
    (uploadD1 (fun _ => true) (fun _ => true)
      [[("Número de pedido JMS", PyVal.vStr "123")]]).map Prod.fst =
      some StatusBatch.completed
  ∧ uploadD1 (fun _ => true) (fun _ => true)
      [[("Número de pedido JMS", PyVal.vStr "123")]] =
      some (StatusBatch.completed,
        saveChunksOptimized (fun _ => true) (fun _ => true)
          (chunksOf 5000 [[("Número de pedido JMS", PyVal.vStr "123")]]))
  ∧ uploadD1 (fun _ => true) (fun _ => true) [] = none :=
  c8_status_sempre_completed (fun _ => true) (fun _ => true)
    [[("Número de pedido JMS", PyVal.vStr "123")]] (by decide)

/-- C8 (counterexample to the claim as stated): with every insert
failing, zero chunk documents are persisted and the status is still
`completed`, not `error`. -/
theorem c8_zero_sucesso_ainda_completed :
    uploadD1 (fun _ => true) (fun _ => true)
      [[("Número de pedido JMS", PyVal.vStr "123")]] =
      some (StatusBatch.completed, 0) := by
  decide
